import Mathlib

/-!
# globed2: network session manager and game-server ping tracker

A shallow embedding of `src/net/game_server_manager.cpp` and
`src/net/network_manager.cpp`.

* `std::unordered_map` is an association list; the list order is the map's
  iteration order. A map built as a copy has an iteration order of its own, which is a
  parameter (`order`) of the functions that build it.
* A C++ function that may throw returns its outcome (`Except Exn _`) together
  with the state it leaves behind, because a throw does not undo earlier writes.
* The clock (`util::time::now`) and the random generator are inputs of the
  functions that read them.
-/

namespace Globed

/-! ## Exceptions and maps -/

/-- C++ exceptions raised by the embedded code. -/
inductive Exn where
  /-- Raised by `std::unordered_map::at` on a missing key (`std::out_of_range`). -/
  | outOfRange
  /-- Raised by a failed `GLOBED_ASSERT`, carrying its message. -/
  | assertionFailed (message : String)
deriving DecidableEq, Repr

deriving instance DecidableEq for Except

/-- The method `unordered_map::contains`. -/
def mapContains {κ α : Type} [DecidableEq κ] (m : List (κ × α)) (k : κ) : Bool :=
  m.any (fun e => decide (e.1 = k))

/-- The method `unordered_map::at`: the mapped value, or `std::out_of_range`. -/
def mapAt {κ α : Type} [DecidableEq κ] (m : List (κ × α)) (k : κ) : Except Exn α :=
  match m.find? (fun e => decide (e.1 = k)) with
  | some e => .ok e.2
  | none => .error .outOfRange

/-- The method `unordered_map::erase` by key. -/
def mapErase {κ α : Type} [DecidableEq κ] (m : List (κ × α)) (k : κ) : List (κ × α) :=
  m.filter (fun e => decide (e.1 ≠ k))

/-- The assignment `m[k] = v`: overwrite the mapped value, or insert a new element. -/
def mapAssign {κ α : Type} [DecidableEq κ] (m : List (κ × α)) (k : κ) (v : α) : List (κ × α) :=
  if mapContains m k then m.map (fun e => if e.1 = k then (e.1, v) else e)
  else m ++ [(k, v)]

/-- The method `unordered_map::clear`. -/
def mapClear {κ α : Type} (_m : List (κ × α)) : List (κ × α) := []

/-! ## Game server roster (`game_server_manager.cpp`) -/

/-- Time points and durations, as integer tick counts of one clock. -/
abbrev Time := Int

/-- Host and port of a game server. -/
structure GameServerAddress where
  ip : String
  port : Nat
deriving DecidableEq, Repr

/-- Modelled from the spec: the rolling buffer type of `pingHistory`, whose declaration is
not part of the sources. "A bounded rolling buffer (fixed capacity, oldest evicted on
overflow)": `push` drops the oldest element when the buffer already holds `cap` elements
and then appends at the tail. The capacity `cap` is a parameter. -/
def cappedPush (cap : Nat) (q : List Time) (x : Time) : List Time :=
  if cap ≤ q.length then q.tail ++ [x] else q ++ [x]

/-- One roster entry (the fields `recordPingResponse` and `getServerView` use). -/
structure GameServerInfo where
  address : GameServerAddress
  pendingPings : List (Nat × Time)
  ping : Time
  playerCount : Nat
  pingHistory : List Time
deriving DecidableEq, Repr

/-- The map `servers`, from server id to roster entry, in iteration order. -/
abbrev Roster := List (String × GameServerInfo)

/-- The snapshot returned by `getServerView`. -/
structure GameServerView where
  ping : Time
  playerCount : Nat
deriving DecidableEq, Repr

/-- The entry a reference obtained by `servers->at(serverId)` points to. -/
def getServer (servers : Roster) (serverId : String) : Option GameServerInfo :=
  match servers with
  | [] => none
  | (k, gsi) :: rest => if k = serverId then some gsi else getServer rest serverId

/-- A write through the reference obtained by `servers->at(serverId)`. -/
def modifyServer (servers : Roster) (serverId : String)
    (f : GameServerInfo → GameServerInfo) : Roster :=
  match servers with
  | [] => []
  | (k, gsi) :: rest =>
    if k = serverId then (k, f gsi) :: rest else (k, gsi) :: modifyServer rest serverId f

/-- `GameServerManager::addPendingPing`. `rnd` is the value drawn from the random
generator (truncated to `uint32_t`), `now` the clock reading. -/
def addPendingPing (servers : Roster) (serverId : String) (rnd : Nat) (now : Time) :
    Except Exn Nat × Roster :=
  let pingId := rnd % 4294967296
  match getServer servers serverId with
  | none => (.error .outOfRange, servers)
  | some _ =>
    (.ok pingId,
      modifyServer servers serverId
        (fun gsi => { gsi with pendingPings := mapAssign gsi.pendingPings pingId now }))

/-- The `for` loop of `recordPingResponse`. The first component is `none` when the loop
runs to its end, and the outcome of the `return` (or of a throw) otherwise. -/
def recordPingLoop (cap : Nat) (pingId playerCount : Nat) (now : Time) :
    Roster → Option (Except Exn Unit) × Roster
  | [] => (none, [])
  | (serverId, server) :: rest =>
    if mapContains server.pendingPings pingId then
      match mapAt server.pendingPings pingId with
      | .error e => (some (.error e), (serverId, server) :: rest)
      | .ok start =>
        let timeTook := now - start
        (some (.ok ()),
          (serverId,
            { server with
              ping := timeTook
              playerCount := playerCount
              pingHistory := cappedPush cap server.pingHistory timeTook
              pendingPings := mapErase server.pendingPings pingId }) :: rest)
    else
      let r := recordPingLoop cap pingId playerCount now rest
      (r.1, (serverId, server) :: r.2)

/-- The roster entry `recordPingResponse` writes for a resolved ping. -/
def resolved (cap pingId n : Nat) (now : Time) (start : Time) (server : GameServerInfo) :
    GameServerInfo :=
  { server with
    ping := now - start
    playerCount := n
    pingHistory := cappedPush cap server.pingHistory (now - start)
    pendingPings := mapErase server.pendingPings pingId }

/-- The text of the warning logged for an unknown ping id. -/
def unknownPingMessage (pingId : Nat) : String :=
  "Ping ID doesn\x27t exist in any known server: " ++ toString pingId

/-- `GameServerManager::recordPingResponse`: outcome, roster afterwards, and the
warn-level log lines written by the call. -/
def recordPingResponse (cap : Nat) (servers : Roster) (pingId playerCount : Nat)
    (now : Time) : Except Exn Unit × Roster × List String :=
  match recordPingLoop cap pingId playerCount now servers with
  | (some r, servers') => (r, servers', [])
  | (none, servers') => (.ok (), servers', [unknownPingMessage pingId])

/-- `GameServerManager::getServerView`. -/
def getServerView (servers : Roster) (serverId : String) : Except Exn GameServerView :=
  match getServer servers serverId with
  | none => .error .outOfRange
  | some gsi => .ok { ping := gsi.ping, playerCount := gsi.playerCount }

/-- `GameServerManager::getPingHistory`; `extract` copies the buffer, oldest first. -/
def getPingHistory (servers : Roster) (serverId : String) : Except Exn (List Time) :=
  match getServer servers serverId with
  | none => .error .outOfRange
  | some gsi => .ok gsi.pingHistory

/-- `GameServerManager::getServerAddresses`. The addresses are copied, in the iteration
order of `servers`, into a new `unordered_map`, and that map has an iteration order of its
own: `order` gives it as a function of the sequence of insertions. The statements below
assume of `order` only that it permutes this sequence. -/
def getServerAddresses
    (order : List (String × GameServerAddress) → List (String × GameServerAddress))
    (servers : Roster) : List (String × GameServerAddress) :=
  order (servers.map (fun e => (e.1, e.2.address)))

/-- Number of pending pings over the whole roster. -/
def totalPending (servers : Roster) : Nat :=
  (servers.map (fun e => e.2.pendingPings.length)).sum

/-! ## Network manager (`network_manager.cpp`) -/

/-- A packet: its id (`getPacketId`) and the payload fields the handlers read. -/
structure Packet where
  packetId : Nat
  /-- The field `data.key` of a `CryptoHandshakeResponsePacket`. -/
  key : List Nat
  /-- The field `message` of a `ServerDisconnectPacket`. -/
  message : String
  /-- The field `id` of a `PingPacket`. -/
  pingId : Nat
deriving DecidableEq, Repr

/-- Modelled from the spec: `PingPacket::create(pingId)`, whose definition is not part of
the sources: "probe request carrying a probe identifier". The packet id of a ping request
belongs to the packet catalogue; no statement below depends on its value. -/
def PingPacket.create (pingId : Nat) : Packet :=
  { packetId := 10000, key := [], message := "", pingId := pingId }

/-- Modelled from the spec: the box behind `socket.box`, whose declaration is not part of
the sources: the "protocol framing state" of a connection, holding the peer key once
`setPeerKey` has installed it. -/
structure CryptoBox where
  peerKey : Option (List Nat)
deriving DecidableEq, Repr

/-- Modelled from the spec: `CryptoBox::setPeerKey` ("installs the key"). -/
def CryptoBox.setPeerKey (_box : CryptoBox) (key : List Nat) : CryptoBox :=
  { peerKey := some key }

/-- Modelled from the spec: the game socket, whose class is not part of the sources: a
"transport connected" flag and the framing state, absent while no connection exists. -/
structure GameSocket where
  connected : Bool
  box : Option CryptoBox
deriving DecidableEq, Repr

/-- Modelled from the spec: `socket.connect(addr, port)`: "on success does NOT set
established, only connected". `ok` is the outcome of the OS-level connect, which is also
the value returned; a failed connect leaves the flag as it was. -/
def GameSocket.connect (socket : GameSocket) (_addr : String) (_port : Nat) (ok : Bool) :
    Bool × GameSocket :=
  (ok, if ok then { socket with connected := true } else socket)

/-- Modelled from the spec: `socket.disconnect()` ("sets connected=false"). -/
def GameSocket.disconnect (socket : GameSocket) : GameSocket :=
  { socket with connected := false }

/-- Modelled from the spec: `socket.createBox()` ("allocates protocol framing state for the
new connection"). -/
def GameSocket.createBox (socket : GameSocket) : GameSocket :=
  { socket with box := some { peerKey := none } }

/-- Modelled from the spec: `socket.cleanupBox()` ("tears down framing state"). -/
def GameSocket.cleanupBox (socket : GameSocket) : GameSocket :=
  { socket with box := none }

/-- Modelled from the spec: the macro `GLOBED_ASSERT(condition, message)`, whose definition
is not part of the sources: the operation "fails" when the condition is false. -/
def globedAssert (condition : Bool) (message : String) : Except Exn Unit :=
  if condition then .ok () else .error (.assertionFailed message)

/-- Modelled from the spec: `push` of the message queue, whose class is not part of the
sources ("enqueues, never fails", "strict FIFO"). -/
def queuePush {α : Type} (q : List α) (item : α) : List α := q ++ [item]

/-- Modelled from the spec: `popAll` of the message queue ("atomically drains and returns
every currently queued item as an ordered sequence"): the items and the queue left. -/
def queuePopAll {α : Type} (q : List α) : List α × List α := (q, [])

/-- Modelled from the spec: `waitForMessages(timeout)` of the message queue ("returns
whether data is available"), once the wait is over. -/
def queueWaitForMessages {α : Type} (q : List α) : Bool := !q.isEmpty

/-- The tasks of the task thread. -/
inductive NetworkThreadTask where
  | PingServers
deriving DecidableEq, Repr

/-- A listener callback, named by a handle; its invocations are recorded in the `World`. -/
abbrev PacketCallback := Nat

/-- The fields of `NetworkManager`. -/
structure NetworkManager where
  socket : GameSocket
  _established : Bool
  _running : Bool
  packetQueue : List Packet
  taskQueue : List NetworkThreadTask
  listeners : List (Nat × PacketCallback)
deriving DecidableEq, Repr

/-- A call made on the ping socket. -/
inductive PingSocketCall where
  | connect (ip : String) (port : Nat)
  | sendPacket (packet : Packet)
  | disconnect
deriving DecidableEq, Repr

/-- Everything outside the manager that its code acts on, as traces in call order. -/
structure World where
  /-- Packets passed to `socket.sendPacket`. -/
  transmitted : List Packet
  /-- Packets released with `delete`. -/
  released : List Packet
  /-- Texts passed to `ErrorQueues::error`. -/
  errors : List String
  /-- Texts passed to `ErrorQueues::warn`. -/
  warnings : List String
  /-- Lines written with `log::warn`. -/
  log : List String
  /-- Closures handed to `queueInMainThread` and not yet run, each with its packet. -/
  mainThread : List Packet
  /-- Listener invocations: the callback and its argument. -/
  invoked : List (PacketCallback × Packet)
  /-- Calls made on the ping socket. -/
  pingCalls : List PingSocketCall
deriving DecidableEq, Repr

/-- A world in which nothing has happened yet. -/
def World.empty : World :=
  { transmitted := [], released := [], errors := [], warnings := [], log := [],
    mainThread := [], invoked := [], pingCalls := [] }

/-- Modelled from the spec: the manager once its constructor has run. The initial values
of the fields are declared in the header, which is not part of the sources: not
connected, not established ("false before any connect"), running, nothing queued or
registered. -/
def NetworkManager.init : NetworkManager :=
  { socket := { connected := false, box := none }, _established := false, _running := true,
    packetQueue := [], taskQueue := [], listeners := [] }

/-- `NetworkManager::connected`. -/
def NetworkManager.connected (nm : NetworkManager) : Bool :=
  nm.socket.connected

/-- `NetworkManager::established`. -/
def NetworkManager.established (nm : NetworkManager) : Bool :=
  nm.socket.connected && nm._established

/-- `NetworkManager::connect`. -/
def NetworkManager.connect (nm : NetworkManager) (addr : String) (port : Nat) (ok : Bool) :
    Except Exn Unit × NetworkManager :=
  let r := nm.socket.connect addr port ok
  match globedAssert r.1 "failed to connect to the server" with
  | .error e => (.error e, { nm with socket := r.2 })
  | .ok _ => (.ok (), { nm with socket := r.2.createBox })

/-- `NetworkManager::disconnect`. -/
def NetworkManager.disconnect (nm : NetworkManager) : NetworkManager :=
  if !nm.connected then nm
  else
    { nm with
      _established := false
      socket := nm.socket.disconnect.cleanupBox }

/-- `NetworkManager::send`. -/
def NetworkManager.send (nm : NetworkManager) (packet : Packet) :
    Except Exn Unit × NetworkManager :=
  match globedAssert nm.socket.connected "tried to send a packet while disconnected" with
  | .error e => (.error e, nm)
  | .ok _ => (.ok (), { nm with packetQueue := queuePush nm.packetQueue packet })

/-- `NetworkManager::addListener`. -/
def NetworkManager.addListener (nm : NetworkManager) (id : Nat) (callback : PacketCallback) :
    NetworkManager :=
  { nm with listeners := mapAssign nm.listeners id callback }

/-- `NetworkManager::removeListener`. -/
def NetworkManager.removeListener (nm : NetworkManager) (id : Nat) : NetworkManager :=
  { nm with listeners := mapErase nm.listeners id }

/-- `NetworkManager::removeAllListeners`. -/
def NetworkManager.removeAllListeners (nm : NetworkManager) : NetworkManager :=
  { nm with listeners := mapClear nm.listeners }

/-- `NetworkManager::taskPingServers`. -/
def NetworkManager.taskPingServers (nm : NetworkManager) : NetworkManager :=
  { nm with taskQueue := queuePush nm.taskQueue .PingServers }

/-- The `for` loop of `threadMainFunc` over the drained messages. `outcome i` is what
`socket.sendPacket` does on the call that follows `i` earlier calls: `none` when it
returns, `some what` when it throws an exception with that text. -/
def sendMessages (outcome : Nat → Option String) : World → List Packet → World
  | w, [] => w
  | w, packet :: rest =>
    let w1 : World :=
      match outcome w.transmitted.length with
      | none => { w with transmitted := w.transmitted ++ [packet] }
      | some what =>
        { w with transmitted := w.transmitted ++ [packet], errors := w.errors ++ [what] }
    sendMessages outcome { w1 with released := w1.released ++ [packet] } rest

/-- One iteration of the `while` loop of `threadMainFunc`. -/
def threadMainIter (outcome : Nat → Option String) (nm : NetworkManager) (w : World) :
    NetworkManager × World :=
  if !queueWaitForMessages nm.packetQueue then (nm, w)
  else
    let r := queuePopAll nm.packetQueue
    ({ nm with packetQueue := r.2 }, sendMessages outcome w r.1)

/-- The text shown when the server disconnects the client. -/
def serverDisconnectMessage (reason : String) : String :=
  "You have been disconnected from the active server.\n\nReason: <cy>" ++ reason ++ "</c>"

/-- The text of the diagnostic for a packet without a listener. -/
def unhandledPacketMessage (packetId : Nat) : String :=
  "Unhandled packet: " ++ toString packetId

/-- One iteration of the `while` loop of `threadRecvFunc` in which `socket.poll` reported
readiness; `received` is what `socket.recvPacket` returns or the text of what it throws.
The result is `none` where the code dereferences `socket.box` while no box exists: the
behaviour of the program is then undefined and there is no state to continue from. -/
def threadRecvIter (nm : NetworkManager) (w : World) (received : Except String Packet) :
    Option (NetworkManager × World) :=
  match received with
  | .error what =>
    some (nm, { w with warnings := w.warnings ++ ["failed to receive a packet: " ++ what] })
  | .ok packet =>
    let packetId := packet.packetId
    if packetId = 20001 then
      match nm.socket.box with
      | none => none
      | some box =>
        some ({ nm with
                socket := { nm.socket with box := some (box.setPeerKey packet.key) }
                _established := true }, w)
    else if packetId = 20002 then some (nm, w)
    else if packetId = 20003 then
      some (nm.disconnect,
        { w with errors := w.errors ++ [serverDisconnectMessage packet.message] })
    else some (nm, { w with mainThread := w.mainThread ++ [packet] })

/-- The closure `threadRecvFunc` hands to `queueInMainThread`, run for `packet`. -/
def runInMainThread (nm : NetworkManager) (w : World) (packet : Packet) : World :=
  let packetId := packet.packetId
  if !mapContains nm.listeners packetId then
    { w with log := w.log ++ [unhandledPacketMessage packetId] }
  else
    match mapAt nm.listeners packetId with
    | .ok callback => { w with invoked := w.invoked ++ [(callback, packet)] }
    | .error _ => w

/-- What the random generator, the clock and the ping socket do during one iteration of
the `PingServers` loop: the generated value, the clock reading, and the call on the ping
socket that throws (with its text), if any. -/
structure PingEnv where
  rnd : Nat
  now : Time
  connectFails : Option String
  sendFails : Option String
  disconnectFails : Option String
deriving DecidableEq, Repr

/-- The `try` block of the `PingServers` loop: the calls made and the exception text. -/
def pingTry (env : PingEnv) (address : GameServerAddress) (packet : Packet) :
    List PingSocketCall × Option String :=
  match env.connectFails with
  | some what => ([.connect address.ip address.port], some what)
  | none =>
    match env.sendFails with
    | some what => ([.connect address.ip address.port, .sendPacket packet], some what)
    | none =>
      ([.connect address.ip address.port, .sendPacket packet, .disconnect],
        env.disconnectFails)

/-- The `for` loop of the `PingServers` task over the addresses returned by
`getServerAddresses`; `env i` describes the environment of iteration `i`. -/
def pingServersLoop (env : Nat → PingEnv) :
    Nat → Roster → World → List (String × GameServerAddress) → Except Exn Unit × Roster × World
  | _, servers, w, [] => (.ok (), servers, w)
  | i, servers, w, (serverId, address) :: rest =>
    match addPendingPing servers serverId (env i).rnd (env i).now with
    | (.error e, servers1) => (.error e, servers1, w)
    | (.ok pingId, servers1) =>
      let packet := PingPacket.create pingId
      let r := pingTry (env i) address packet
      let w1 : World := { w with pingCalls := w.pingCalls ++ r.1 }
      let w2 : World :=
        match r.2 with
        | none => w1
        | some what => { w1 with warnings := w1.warnings ++ [what] }
      pingServersLoop env (i + 1) servers1 { w2 with released := w2.released ++ [packet] } rest

/-- The task `NetworkThreadTask::PingServers` as processed by `threadTasksFunc`: the loop
runs over the map returned by `getServerAddresses`, in the iteration order of that map. -/
def pingServers
    (order : List (String × GameServerAddress) → List (String × GameServerAddress))
    (env : Nat → PingEnv) (servers : Roster) (w : World) :
    Except Exn Unit × Roster × World :=
  pingServersLoop env 0 servers w (getServerAddresses order servers)

/-! ### Sessions as sequences of steps -/

/-- A step of a session: a call of the public surface, or one receiver iteration. -/
inductive Step where
  | connect (addr : String) (port : Nat) (ok : Bool)
  | disconnect
  | send (packet : Packet)
  | recv (received : Except String Packet)
deriving DecidableEq, Repr

/-- The state after one step; an exception thrown to the caller leaves the state the call
had reached. -/
def step (s : NetworkManager × World) : Step → Option (NetworkManager × World)
  | .connect addr port ok => some ((s.1.connect addr port ok).2, s.2)
  | .disconnect => some (s.1.disconnect, s.2)
  | .send packet => some ((s.1.send packet).2, s.2)
  | .recv received => threadRecvIter s.1 s.2 received

/-- The state after a sequence of steps. -/
def run (s : NetworkManager × World) : List Step → Option (NetworkManager × World)
  | [] => some s
  | st :: rest =>
    match step s st with
    | none => none
    | some s1 => run s1 rest

/-- The initial session state. -/
def initState : NetworkManager × World := (NetworkManager.init, World.empty)

/-- The step is a call of `connect`. -/
def isConnect : Step → Bool
  | .connect _ _ _ => true
  | _ => false

/-- The step is a call of `connect` that succeeds. -/
def isSuccessfulConnect : Step → Bool
  | .connect _ _ ok => ok
  | _ => false

/-- Every `connect` step of the sequence is taken in a state that is not connected. -/
def connectsWhileDisconnected (s : NetworkManager × World) : List Step → Bool
  | [] => true
  | st :: rest =>
    (!isConnect st || !s.1.connected) &&
    (match step s st with
      | none => true
      | some s1 => connectsWhileDisconnected s1 rest)

/-- The steps taken since the last successful `connect`, if there was one. -/
def sinceLastConnect : List Step → Option (List Step)
  | [] => none
  | st :: rest =>
    match sinceLastConnect rest with
    | some tail => some tail
    | none => if isSuccessfulConnect st then some rest else none

/-- The step is the receipt of a handshake response (packet id 20001). -/
def isHandshakeResponse : Step → Bool
  | .recv (.ok packet) => decide (packet.packetId = 20001)
  | _ => false

/-- What holds of a session state `s` reached by the steps `t`: the box exists exactly
while connected, the flag `_established` is set only while connected, a connected state
has a successful `connect` behind it, and a set flag has a handshake response behind it
that came after the last successful `connect`. -/
def SessionInv (t : List Step) (s : NetworkManager × World) : Prop :=
  s.1.socket.box.isSome = s.1.socket.connected ∧
  (s.1._established = true → s.1.socket.connected = true) ∧
  (s.1.socket.connected = true → (sinceLastConnect t).isSome = true) ∧
  (s.1._established = true →
    ∃ tail, sinceLastConnect t = some tail ∧ tail.any isHandshakeResponse = true)

/-- The calls `send` makes for a sequence of packets, in order: outcomes and final state. -/
def sendSeq (nm : NetworkManager) : List Packet → List (Except Exn Unit) × NetworkManager
  | [] => ([], nm)
  | packet :: rest =>
    let r := nm.send packet
    let rs := sendSeq r.2 rest
    (r.1 :: rs.1, rs.2)

/-! ### Teardown -/

/-- `NetworkManager::threadMainFunc`: the loop `while (_running)`; `fuel` bounds the number
of times the loop condition is tested. -/
def threadMainFunc (outcome : Nat → Option String) :
    Nat → NetworkManager → World → Option (NetworkManager × World)
  | 0, _, _ => none
  | fuel + 1, nm, w =>
    if !nm._running then some (nm, w)
    else
      let r := threadMainIter outcome nm w
      threadMainFunc outcome fuel r.1 r.2

/-- The call `threadMain.join()`: the sender thread runs to the end of its function. When
the destructor clears `_running` the thread is either about to test the loop condition, or
(`midIteration`) has just passed the test and still runs one iteration. -/
def joinThreadMain (outcome : Nat → Option String) (midIteration : Bool) (fuel : Nat)
    (nm : NetworkManager) (w : World) : Option (NetworkManager × World) :=
  let r := if midIteration then threadMainIter outcome nm w else (nm, w)
  threadMainFunc outcome fuel r.1 r.2

/-- `NetworkManager::~NetworkManager`: the state it leaves and the debug lines it logs.
The body of `if (socket.connected)` is a log line and the comment `// todo`. -/
def NetworkManager.destructor (outcome : Nat → Option String) (midIteration : Bool)
    (fuel : Nat) (nm : NetworkManager) (w : World) :
    Option (NetworkManager × World × List String) :=
  let nm1 : NetworkManager := { nm with _running := false }
  let d1 := ["waiting for threads to die.."]
  match joinThreadMain outcome midIteration fuel nm1 w with
  | none => none
  | some (nm2, w2) =>
    let d2 := if nm2.socket.connected then d1 ++ ["disconnecting from the server.."] else d1
    let d3 := d2 ++ ["cleaning up.."]
    let r := queuePopAll nm2.packetQueue
    some ({ nm2 with packetQueue := r.2 }, { w2 with released := w2.released ++ r.1 },
      d3 ++ ["Goodbye!"])

/-! ### Calls on the ping socket -/

/-- The call is `pingSocket.connect`. -/
def isConnectCall : PingSocketCall → Bool
  | .connect _ _ => true
  | _ => false

/-- The call is `pingSocket.sendPacket`. -/
def isSendCall : PingSocketCall → Bool
  | .sendPacket _ => true
  | _ => false

/-- The ping id generated in iteration `i` of the `PingServers` loop. -/
def pingIdOf (env : Nat → PingEnv) (i : Nat) : Nat := (env i).rnd % 4294967296

/-- The write `addPendingPing` makes to a roster entry in iteration `i` of the loop. -/
def stampPing (env : Nat → PingEnv) (i : Nat) (gsi : GameServerInfo) : GameServerInfo :=
  { gsi with pendingPings := mapAssign gsi.pendingPings (pingIdOf env i) (env i).now }

/-! ### Sequences of roster operations -/

/-- A call on the roster: `addPendingPing` with the value the random generator yields and
the clock reading, or `recordPingResponse` with the clock reading. -/
inductive RosterOp where
  | addPendingPing (serverId : String) (rnd : Nat) (now : Time)
  | recordPingResponse (pingId playerCount : Nat) (now : Time)
deriving DecidableEq, Repr

/-- The roster after one call; a call that throws leaves the roster it had reached. -/
def applyOp (cap : Nat) (servers : Roster) : RosterOp → Roster
  | .addPendingPing serverId rnd now => (addPendingPing servers serverId rnd now).2
  | .recordPingResponse pingId playerCount now =>
    (recordPingResponse cap servers pingId playerCount now).2.1

/-- The roster after a sequence of calls. -/
def runOps (cap : Nat) (servers : Roster) : List RosterOp → Roster
  | [] => servers
  | op :: rest => runOps cap (applyOp cap servers op) rest

/-- The number of roster entries on which the ping id is pending. -/
def holders (servers : Roster) (pingId : Nat) : Nat :=
  servers.countP (fun e => mapContains e.2.pendingPings pingId)

/-- Every ping id generated along the sequence is, when generated, pending on no server. -/
def idsFresh (cap : Nat) (servers : Roster) : List RosterOp → Bool
  | [] => true
  | op :: rest =>
    (match op with
      | .addPendingPing _ rnd _ => decide (holders servers (rnd % 4294967296) = 0)
      | .recordPingResponse _ _ _ => true) &&
    idsFresh cap (applyOp cap servers op) rest

/-! ### Sample rosters -/

/-- A fresh roster entry. -/
def freshInfo (ip : String) (port : Nat) : GameServerInfo :=
  { address := { ip := ip, port := port }, pendingPings := [], ping := -1,
    playerCount := 0, pingHistory := [] }

/-- Two fresh servers. -/
def rosterAB : Roster := [("A", freshInfo "host1" 1000), ("B", freshInfo "host2" 2000)]

/-- The same two fresh servers, with "B" first in iteration order. -/
def rosterBA : Roster := [("B", freshInfo "host2" 2000), ("A", freshInfo "host1" 1000)]

/-- An environment of the ping task: the generator yields `rnd i` in iteration `i`, the
clock reads `100 + i`, and no call on the ping socket fails. -/
def quietEnv (rnd : Nat → Nat) (i : Nat) : PingEnv :=
  { rnd := rnd i, now := 100 + i, connectFails := none, sendFails := none,
    disconnectFails := none }

/-- Two servers, the first of which already has ping id 7 pending. -/
def rosterCollide : Roster :=
  [("A", { freshInfo "host1" 1000 with pendingPings := [(7, 10)] }),
   ("B", freshInfo "host2" 2000)]

/-! ### Sample sessions -/

/-- A handshake response carrying the key `[1, 2, 3]`. -/
def handshakePacket : Packet := { packetId := 20001, key := [1, 2, 3], message := "", pingId := 0 }

/-- An application packet with id 4242. -/
def chatPacket : Packet := { packetId := 4242, key := [], message := "hello", pingId := 0 }

/-- Another application packet, with id 4243. -/
def movePacket : Packet := { packetId := 4243, key := [], message := "", pingId := 0 }

/-- The manager after a successful `connect` from the initial state. -/
def connectedManager : NetworkManager := (NetworkManager.init.connect "host1" 1000 true).2

/-- The state reached by a successful `connect` followed by a handshake response. -/
def establishedState : NetworkManager × World :=
  ({ socket := { connected := true, box := some { peerKey := some [1, 2, 3] } },
     _established := true, _running := true, packetQueue := [], taskQueue := [],
     listeners := [] },
   World.empty)

/-- The state reached after connecting, completing the handshake, disconnecting and
connecting again. -/
def reconnectedState : NetworkManager × World :=
  ({ socket := { connected := true, box := some { peerKey := none } },
     _established := false, _running := true, packetQueue := [], taskQueue := [],
     listeners := [] },
   World.empty)

/-- A connected manager with a listener (callback 1) registered for packet id 20001 and
one (callback 2) for packet id 4242. -/
def listeningManager : NetworkManager :=
  (connectedManager.addListener 20001 1).addListener 4242 2

/-- Transmission fails on every second call of `sendPacket`, starting with the first. -/
def flakyOutcome (i : Nat) : Option String := if i % 2 = 0 then some "send failed" else none

/-- A connected manager with one packet in its outbound queue. -/
def queuedManager : NetworkManager := (connectedManager.send chatPacket).2

/-- An environment of the ping task in which the connect of the first iteration fails: the
generator yields `7 + i`, the clock reads `100 + i`. -/
def unreachableFirstEnv (i : Nat) : PingEnv :=
  { rnd := 7 + i, now := 100 + i,
    connectFails := if i = 0 then some "connection refused" else none,
    sendFails := none, disconnectFails := none }

/-- Three servers; ping id 7 is pending on the second and on the third. -/
def rosterDuplicate : Roster :=
  [("A", freshInfo "host1" 1000),
   ("B", { freshInfo "host2" 2000 with pendingPings := [(7, 100), (8, 101)] }),
   ("C", { freshInfo "host3" 3000 with pendingPings := [(7, 102)] })]

/-! ## Lemmas on maps and rosters -/

theorem mapContains_mapAssign {κ α : Type} [DecidableEq κ] (m : List (κ × α)) (k : κ) (v : α) :
    mapContains (mapAssign m k v) k = true := by
  unfold mapAssign
  by_cases h : mapContains m k = true
  · rw [if_pos h]
    unfold mapContains at h ⊢
    rw [List.any_eq_true] at h ⊢
    obtain ⟨e, he, hk⟩ := h
    refine ⟨(e.1, v), ?_, ?_⟩
    · rw [List.mem_map]
      refine ⟨e, he, ?_⟩
      have hk1 : e.1 = k := of_decide_eq_true hk
      rw [if_pos hk1]
    · exact hk
  · rw [if_neg h]
    unfold mapContains
    rw [List.any_eq_true]
    exact ⟨(k, v), by simp, by simp⟩

theorem mapAt_mapAssign {κ α : Type} [DecidableEq κ] (m : List (κ × α)) (k : κ) (v : α) :
    mapAt (mapAssign m k v) k = .ok v := by
  unfold mapAssign mapAt
  by_cases h : mapContains m k = true
  · rw [if_pos h]
    induction m with
    | nil => simp [mapContains] at h
    | cons e rest ih =>
      by_cases hk : e.1 = k
      · simp [List.find?, hk]
      · have hrest : mapContains rest k = true := by
          simpa [mapContains, hk] using h
        have ih1 := ih hrest
        simp only [List.map_cons, if_neg hk, List.find?, hk, decide_False, if_false]
        exact ih1
  · rw [if_neg h]
    have hnone : m.find? (fun e => decide (e.1 = k)) = none := by
      rw [List.find?_eq_none]
      intro e he hk
      apply h
      unfold mapContains
      rw [List.any_eq_true]
      exact ⟨e, he, hk⟩
    rw [List.find?_append, hnone]
    simp

theorem mapContains_mapErase {κ α : Type} [DecidableEq κ] (m : List (κ × α)) (k : κ) :
    mapContains (mapErase m k) k = false := by
  unfold mapContains mapErase
  rw [Bool.eq_false_iff]
  intro h
  rw [List.any_eq_true] at h
  obtain ⟨e, he, hk⟩ := h
  rw [List.mem_filter] at he
  simp at hk he
  exact he.2 hk

theorem getServer_modifyServer (servers : Roster) (serverId : String)
    (f : GameServerInfo → GameServerInfo) :
    getServer (modifyServer servers serverId f) serverId =
      (getServer servers serverId).map f := by
  induction servers with
  | nil => rfl
  | cons e rest ih =>
    obtain ⟨k, gsi⟩ := e
    by_cases hk : k = serverId
    · simp [getServer, modifyServer, hk]
    · simp [getServer, modifyServer, hk, ih]

theorem recordPingLoop_none (cap pingId n : Nat) (now : Time) (servers : Roster)
    (h : ∀ e ∈ servers, mapContains e.2.pendingPings pingId = false) :
    recordPingLoop cap pingId n now servers = (none, servers) := by
  induction servers with
  | nil => rfl
  | cons e rest ih =>
    obtain ⟨k, gsi⟩ := e
    have h1 : mapContains gsi.pendingPings pingId = false := h (k, gsi) (by simp)
    have h2 := ih (fun e he => h e (List.mem_cons_of_mem _ he))
    simp [recordPingLoop, h1, h2]

theorem recordPingLoop_after_add (cap pingId n : Nat) (now1 now2 : Time) (servers : Roster)
    (serverId : String) (gsi : GameServerInfo)
    (hget : getServer servers serverId = some gsi)
    (hfresh : ∀ e ∈ servers, e.1 ≠ serverId → mapContains e.2.pendingPings pingId = false) :
    recordPingLoop cap pingId n now2
        (modifyServer servers serverId
          (fun g => { g with pendingPings := mapAssign g.pendingPings pingId now1 })) =
      (some (.ok ()),
        modifyServer servers serverId
          (fun g => resolved cap pingId n now2 now1
            { g with pendingPings := mapAssign g.pendingPings pingId now1 })) := by
  induction servers with
  | nil => simp [getServer] at hget
  | cons e rest ih =>
    obtain ⟨k, g⟩ := e
    by_cases hk : k = serverId
    · simp [modifyServer, recordPingLoop, hk, mapContains_mapAssign, mapAt_mapAssign, resolved]
    · have h1 : mapContains g.pendingPings pingId = false := hfresh (k, g) (by simp) hk
      have hget1 : getServer rest serverId = some gsi := by
        simpa [getServer, hk] using hget
      have h2 := ih hget1 (fun e he => hfresh e (List.mem_cons_of_mem _ he))
      simp [modifyServer, recordPingLoop, hk, h1, h2]

/-! ## Ping bookkeeping: a ping and its response -/

/-- C1 (as amended): for every roster, every server id present in it and every generated
ping id that is not pending on any other server, `addPendingPing(serverId)` returns the
ping id and an immediately following `recordPingResponse(pingId, n)` returns normally
without a warning, sets that server's `playerCount` to `n` and its `ping` to the time
elapsed, pushes exactly that one duration onto its ping history (appended at the tail, the
oldest entry being evicted when the history is full), and leaves the ping id absent from
its `pendingPings`. -/
theorem addPendingPing_then_recordPingResponse (cap : Nat) (servers : Roster)
    (serverId : String) (gsi : GameServerInfo) (rnd n : Nat) (now1 now2 : Time)
    (hpresent : getServer servers serverId = some gsi)
    (hfresh : ∀ e ∈ servers, e.1 ≠ serverId →
      mapContains e.2.pendingPings (rnd % 4294967296) = false) :
    (addPendingPing servers serverId rnd now1).1 = .ok (rnd % 4294967296) ∧
    (recordPingResponse cap (addPendingPing servers serverId rnd now1).2
      (rnd % 4294967296) n now2).1 = .ok () ∧
    (recordPingResponse cap (addPendingPing servers serverId rnd now1).2
      (rnd % 4294967296) n now2).2.2 = [] ∧
    ∃ gsi1 : GameServerInfo,
      getServer (recordPingResponse cap (addPendingPing servers serverId rnd now1).2
        (rnd % 4294967296) n now2).2.1 serverId = some gsi1 ∧
      gsi1.playerCount = n ∧
      gsi1.ping = now2 - now1 ∧
      gsi1.pingHistory = cappedPush cap gsi.pingHistory (now2 - now1) ∧
      gsi1.pingHistory.getLast? = some (now2 - now1) ∧
      (gsi.pingHistory.length < cap → gsi1.pingHistory = gsi.pingHistory ++ [now2 - now1]) ∧
      mapContains gsi1.pendingPings (rnd % 4294967296) = false ∧
      gsi1.address = gsi.address := by
  have hloop := recordPingLoop_after_add cap (rnd % 4294967296) n now1 now2 servers serverId
    gsi hpresent hfresh
  have hadd : addPendingPing servers serverId rnd now1 =
      (.ok (rnd % 4294967296),
        modifyServer servers serverId
          (fun g => { g with
            pendingPings := mapAssign g.pendingPings (rnd % 4294967296) now1 })) := by
    simp [addPendingPing, hpresent]
  rw [hadd]
  simp only [recordPingResponse, hloop]
  refine ⟨trivial, trivial, trivial, ?_⟩
  refine ⟨resolved cap (rnd % 4294967296) n now2 now1
      { gsi with pendingPings := mapAssign gsi.pendingPings (rnd % 4294967296) now1 },
    by rw [getServer_modifyServer, hpresent]; rfl, rfl, rfl, rfl, ?_, ?_, ?_, rfl⟩
  · simp only [resolved, cappedPush]
    split <;> simp
  · intro hlen
    simp only [resolved, cappedPush]
    rw [if_neg (by omega)]
  · exact mapContains_mapErase _ _

/-- Witness for C1: server "B" of a fresh two-server roster, ping id 7 issued at time 100,
answered with player count 5 at time 140. -/
theorem addPendingPing_then_recordPingResponse_witness :
    (addPendingPing rosterAB "B" 7 100).1 = .ok 7 ∧
    (recordPingResponse 3 (addPendingPing rosterAB "B" 7 100).2 7 5 140).1 = .ok () ∧
    (recordPingResponse 3 (addPendingPing rosterAB "B" 7 100).2 7 5 140).2.2 = [] ∧
    ∃ gsi1 : GameServerInfo,
      getServer (recordPingResponse 3 (addPendingPing rosterAB "B" 7 100).2 7 5 140).2.1 "B"
        = some gsi1 ∧
      gsi1.playerCount = 5 ∧
      gsi1.ping = 140 - 100 ∧
      gsi1.pingHistory = cappedPush 3 (freshInfo "host2" 2000).pingHistory (140 - 100) ∧
      gsi1.pingHistory.getLast? = some (140 - 100) ∧
      ((freshInfo "host2" 2000).pingHistory.length < 3 →
        gsi1.pingHistory = (freshInfo "host2" 2000).pingHistory ++ [140 - 100]) ∧
      mapContains gsi1.pendingPings 7 = false ∧
      gsi1.address = (freshInfo "host2" 2000).address :=
  addPendingPing_then_recordPingResponse 3 rosterAB "B" (freshInfo "host2" 2000) 7 5 100 140
    (by decide) (by decide)

/-- C1 (counterexample to the claim as stated): ping id 7 is already pending on server "A",
which precedes "B" in the roster. `addPendingPing("B")` returns 7, and the immediately
following `recordPingResponse(7, 5)` resolves "A": the player count of "B" stays 0, its ping
history stays empty, and 7 is still in its `pendingPings`. -/
theorem colliding_ping_resolves_other_server :
    (addPendingPing rosterCollide "B" 7 100).1 = .ok 7 ∧
    (recordPingResponse 3 (addPendingPing rosterCollide "B" 7 100).2 7 5 140).1 = .ok () ∧
    getServer (recordPingResponse 3 (addPendingPing rosterCollide "B" 7 100).2 7 5 140).2.1 "B"
      = some { freshInfo "host2" 2000 with pendingPings := [(7, 100)] } ∧
    (getServer (recordPingResponse 3 (addPendingPing rosterCollide "B" 7 100).2 7 5 140).2.1
      "B").map (fun g => g.playerCount) ≠ some 5 ∧
    (getServer (recordPingResponse 3 (addPendingPing rosterCollide "B" 7 100).2 7 5 140).2.1
      "B").map (fun g => mapContains g.pendingPings 7) = some true := by
  decide

/-- C2: for every roster and every ping id that is in no server's `pendingPings`,
`recordPingResponse(pingId, n)` returns normally, leaves the roster (every entry, every
field) as it was, and writes exactly one warning. -/
theorem recordPingResponse_unknown_id (cap : Nat) (servers : Roster) (pingId n : Nat)
    (now : Time)
    (habsent : ∀ e ∈ servers, mapContains e.2.pendingPings pingId = false) :
    recordPingResponse cap servers pingId n now =
      (.ok (), servers, [unknownPingMessage pingId]) := by
  simp [recordPingResponse, recordPingLoop_none cap pingId n now servers habsent]

/-- Witness for C2: ping id 9 on a roster whose only pending ping is 7. -/
theorem recordPingResponse_unknown_id_witness :
    recordPingResponse 3 rosterCollide 9 5 140 =
      (.ok (), rosterCollide, [unknownPingMessage 9]) :=
  recordPingResponse_unknown_id 3 rosterCollide 9 5 140 (by decide)

/-! ## Sending -/

theorem sendSeq_connected (ms : List Packet) (nm : NetworkManager)
    (hconn : nm.connected = true) :
    sendSeq nm ms =
      (ms.map (fun _ => .ok ()), { nm with packetQueue := nm.packetQueue ++ ms }) := by
  induction ms generalizing nm with
  | nil => simp [sendSeq]
  | cons p rest ih =>
    have hc : nm.socket.connected = true := hconn
    have hsend : nm.send p = (.ok (), { nm with packetQueue := nm.packetQueue ++ [p] }) := by
      simp [NetworkManager.send, globedAssert, hc, queuePush]
    have ih1 := ih { nm with packetQueue := nm.packetQueue ++ [p] } hconn
    simp [sendSeq, hsend, ih1]

theorem sendMessages_eq (outcome : Nat → Option String) (ms : List Packet) (w : World) :
    sendMessages outcome w ms =
      { w with
        transmitted := w.transmitted ++ ms
        released := w.released ++ ms
        errors := w.errors ++
          (List.range ms.length).filterMap (fun i => outcome (w.transmitted.length + i)) } := by
  induction ms generalizing w with
  | nil => simp [sendMessages]
  | cons p rest ih =>
    rw [sendMessages, ih]
    cases hout : outcome w.transmitted.length with
    | none =>
      simp [List.range_succ_eq_map, List.filterMap_cons, hout, List.filterMap_map,
        Function.comp_def, Nat.add_assoc, Nat.add_comm 1]
    | some what =>
      simp [List.range_succ_eq_map, List.filterMap_cons, hout, List.filterMap_map,
        Function.comp_def, Nat.add_assoc, Nat.add_comm 1]

/-- C3: for every manager state and packet: when `connected()` is false, `send(p)` raises,
leaves the state (and so the outbound queue) as it was, and a following sender iteration
does exactly what it would have done without the call; when `connected()` is true,
`send(p)` returns normally and appends `p` at the tail of the outbound queue, changing
nothing else. -/
theorem send_checks_connection (nm : NetworkManager) (p : Packet) :
    (nm.connected = false →
      (nm.send p).1 = .error (.assertionFailed "tried to send a packet while disconnected") ∧
      (nm.send p).2 = nm ∧
      ∀ (outcome : Nat → Option String) (w : World),
        threadMainIter outcome (nm.send p).2 w = threadMainIter outcome nm w) ∧
    (nm.connected = true →
      (nm.send p).1 = .ok () ∧
      (nm.send p).2 = { nm with packetQueue := nm.packetQueue ++ [p] }) := by
  constructor
  · intro h
    have hc : nm.socket.connected = false := h
    simp [NetworkManager.send, globedAssert, hc]
  · intro h
    have hc : nm.socket.connected = true := h
    simp [NetworkManager.send, globedAssert, hc, queuePush]

/-- Witness for C3: a send in the initial (disconnected) state and one after `connect`. -/
theorem send_checks_connection_witness :
    ((NetworkManager.init.send chatPacket).1 =
        .error (.assertionFailed "tried to send a packet while disconnected") ∧
      (NetworkManager.init.send chatPacket).2 = NetworkManager.init ∧
      ∀ (outcome : Nat → Option String) (w : World),
        threadMainIter outcome (NetworkManager.init.send chatPacket).2 w =
          threadMainIter outcome NetworkManager.init w) ∧
    ((connectedManager.send chatPacket).1 = .ok () ∧
      (connectedManager.send chatPacket).2 =
        { connectedManager with packetQueue := connectedManager.packetQueue ++ [chatPacket] }) :=
  ⟨(send_checks_connection NetworkManager.init chatPacket).1 (by decide),
   (send_checks_connection connectedManager chatPacket).2 (by decide)⟩

/-- C4: for every connected manager state, every sequence of packets `ms` and every
pattern `outcome` of transmit failures: all of `ms` are accepted by `send` and queued
behind what was queued before, in order; one iteration of the sender loop then passes the
queued packets to the transport once each in exactly that order, reports exactly the
failures to the error sink while still attempting the packets after a failure, releases
every packet, and leaves the outbound queue empty. -/
theorem sender_iteration_in_order (outcome : Nat → Option String) (nm : NetworkManager)
    (w : World) (ms : List Packet) (hconn : nm.connected = true) :
    (sendSeq nm ms).1 = ms.map (fun _ => .ok ()) ∧
    (sendSeq nm ms).2.packetQueue = nm.packetQueue ++ ms ∧
    (threadMainIter outcome (sendSeq nm ms).2 w).1.packetQueue = [] ∧
    (threadMainIter outcome (sendSeq nm ms).2 w).2 =
      { w with
        transmitted := w.transmitted ++ (nm.packetQueue ++ ms)
        released := w.released ++ (nm.packetQueue ++ ms)
        errors := w.errors ++
          (List.range (nm.packetQueue ++ ms).length).filterMap
            (fun i => outcome (w.transmitted.length + i)) } := by
  rw [sendSeq_connected ms nm hconn]
  refine ⟨rfl, rfl, ?_, ?_⟩
  · unfold threadMainIter
    split
    · rename_i hempty
      simpa [queueWaitForMessages] using hempty
    · rfl
  · unfold threadMainIter
    split
    · rename_i hempty
      have hnil : nm.packetQueue ++ ms = [] := by
        simpa [queueWaitForMessages] using hempty
      simp [hnil]
    · simp only [queuePopAll]
      rw [sendMessages_eq]

/-- Witness for C4: two packets sent on a fresh connection, the first transmission
failing. Both are passed to the transport in order, one error is reported. -/
theorem sender_iteration_in_order_witness :
    (sendSeq connectedManager [chatPacket, movePacket]).1 = [.ok (), .ok ()] ∧
    (sendSeq connectedManager [chatPacket, movePacket]).2.packetQueue =
      [chatPacket, movePacket] ∧
    (threadMainIter flakyOutcome
      (sendSeq connectedManager [chatPacket, movePacket]).2 World.empty).1.packetQueue = [] ∧
    (threadMainIter flakyOutcome
      (sendSeq connectedManager [chatPacket, movePacket]).2 World.empty).2 =
      { World.empty with
        transmitted := [chatPacket, movePacket]
        released := [chatPacket, movePacket]
        errors := ["send failed"] } :=
  sender_iteration_in_order flakyOutcome connectedManager World.empty [chatPacket, movePacket]
    (by decide)

/-! ## Connection state -/

theorem run_append (s : NetworkManager × World) (t : List Step) (st : Step) :
    run s (t ++ [st]) = (run s t).bind (fun s1 => step s1 st) := by
  induction t generalizing s with
  | nil =>
    simp only [List.nil_append, run, Option.some_bind]
    cases step s st <;> rfl
  | cons a rest ih =>
    simp only [List.cons_append, run]
    cases step s a with
    | none => rfl
    | some s1 => exact ih s1

theorem connectsWhileDisconnected_append (s : NetworkManager × World) (t : List Step)
    (st : Step) (h : connectsWhileDisconnected s (t ++ [st]) = true) :
    connectsWhileDisconnected s t = true ∧
    ∀ s1, run s t = some s1 → isConnect st = true → s1.1.connected = false := by
  induction t generalizing s with
  | nil =>
    refine ⟨rfl, ?_⟩
    intro s1 hs1 hst
    simp only [run, Option.some.injEq] at hs1
    subst hs1
    simp only [List.nil_append, connectsWhileDisconnected, Bool.and_eq_true, hst,
      Bool.not_true, Bool.false_or, Bool.not_eq_true'] at h
    exact h.1
  | cons a rest ih =>
    simp only [List.cons_append, connectsWhileDisconnected, Bool.and_eq_true] at h ⊢
    obtain ⟨h1, h2⟩ := h
    cases hstep : step s a with
    | none =>
      refine ⟨⟨h1, rfl⟩, ?_⟩
      intro s1 hs1
      simp [run, hstep] at hs1
    | some s2 =>
      rw [hstep] at h2
      have ih1 := ih s2 h2
      refine ⟨⟨h1, ih1.1⟩, ?_⟩
      intro s1 hs1
      simp only [run, hstep] at hs1
      exact ih1.2 s1 hs1

theorem sinceLastConnect_append_connect (t : List Step) (st : Step)
    (hst : isSuccessfulConnect st = true) : sinceLastConnect (t ++ [st]) = some [] := by
  induction t with
  | nil => simp [sinceLastConnect, hst]
  | cons a rest ih => simp [sinceLastConnect, ih]

theorem sinceLastConnect_append_other (t : List Step) (st : Step)
    (hst : isSuccessfulConnect st = false) :
    sinceLastConnect (t ++ [st]) = (sinceLastConnect t).map (fun tail => tail ++ [st]) := by
  induction t with
  | nil => simp [sinceLastConnect, hst]
  | cons a rest ih =>
    rw [List.cons_append, sinceLastConnect, ih, sinceLastConnect]
    cases sinceLastConnect rest with
    | some tail => rfl
    | none =>
      cases isSuccessfulConnect a <;> rfl

theorem sessionInv_keep (t : List Step) (s s1 : NetworkManager × World) (st : Step)
    (hinv : SessionInv t s) (hst : isSuccessfulConnect st = false)
    (hsock : s1.1.socket = s.1.socket) (hest : s1.1._established = s.1._established) :
    SessionInv (t ++ [st]) s1 := by
  obtain ⟨h1, h2, h3, h4⟩ := hinv
  rw [SessionInv, hsock, hest, sinceLastConnect_append_other t st hst]
  refine ⟨h1, h2, ?_, ?_⟩
  · intro hc
    have := h3 hc
    simpa using this
  · intro he
    obtain ⟨tail, htail, hany⟩ := h4 he
    refine ⟨tail ++ [st], by simp [htail], ?_⟩
    rw [List.any_append, hany]
    rfl

theorem sessionInv_reset (t : List Step) (s1 : NetworkManager × World)
    (hbox : s1.1.socket.box.isSome = s1.1.socket.connected)
    (hest : s1.1._established = false)
    (hconn : s1.1.socket.connected = true → (sinceLastConnect t).isSome = true) :
    SessionInv t s1 := by
  refine ⟨hbox, ?_, hconn, ?_⟩
  · intro he
    rw [hest] at he
    exact absurd he (by decide)
  · intro he
    rw [hest] at he
    exact absurd he (by decide)

theorem sessionInv_disconnect (t : List Step) (s : NetworkManager × World) (st : Step)
    (w1 : World) (hinv : SessionInv t s) (hst : isSuccessfulConnect st = false) :
    SessionInv (t ++ [st]) (s.1.disconnect, w1) := by
  by_cases hc : s.1.socket.connected = true
  · apply sessionInv_reset
    · simp [NetworkManager.disconnect, NetworkManager.connected, hc, GameSocket.disconnect,
        GameSocket.cleanupBox]
    · simp [NetworkManager.disconnect, NetworkManager.connected, hc]
    · simp [NetworkManager.disconnect, NetworkManager.connected, hc, GameSocket.disconnect,
        GameSocket.cleanupBox]
  · apply sessionInv_keep t s _ st hinv hst
    · simp [NetworkManager.disconnect, NetworkManager.connected, hc]
    · simp [NetworkManager.disconnect, NetworkManager.connected, hc]

theorem sessionInv_step (t : List Step) (s s1 : NetworkManager × World) (st : Step)
    (hinv : SessionInv t s) (hcwd : isConnect st = true → s.1.connected = false)
    (hstep : step s st = some s1) : SessionInv (t ++ [st]) s1 := by
  cases st with
  | connect addr port ok =>
    simp only [step, Option.some.injEq] at hstep
    subst hstep
    have hdis : s.1.socket.connected = false := hcwd rfl
    cases ok with
    | false =>
      apply sessionInv_keep t s _ (.connect addr port false) hinv rfl
      · simp [NetworkManager.connect, GameSocket.connect, globedAssert]
      · simp [NetworkManager.connect, GameSocket.connect, globedAssert]
    | true =>
      have hest : s.1._established = false := by
        cases he : s.1._established with
        | false => rfl
        | true =>
          have := hinv.2.1 he
          rw [hdis] at this
          exact absurd this (by decide)
      apply sessionInv_reset
      · simp [NetworkManager.connect, GameSocket.connect, globedAssert, GameSocket.createBox]
      · simpa [NetworkManager.connect, GameSocket.connect, globedAssert] using hest
      · intro _
        rw [sinceLastConnect_append_connect t (.connect addr port true) rfl]
        rfl
  | disconnect =>
    simp only [step, Option.some.injEq] at hstep
    subst hstep
    exact sessionInv_disconnect t s _ _ hinv rfl
  | send packet =>
    simp only [step, Option.some.injEq] at hstep
    subst hstep
    apply sessionInv_keep t s _ (.send packet) hinv rfl
    · simp only [NetworkManager.send, globedAssert]
      split <;> rfl
    · simp only [NetworkManager.send, globedAssert]
      split <;> rfl
  | recv received =>
    cases received with
    | error what =>
      simp only [step, threadRecvIter, Option.some.injEq] at hstep
      subst hstep
      exact sessionInv_keep t s _ _ hinv rfl rfl rfl
    | ok packet =>
      simp only [step, threadRecvIter] at hstep
      by_cases h1 : packet.packetId = 20001
      · rw [if_pos h1] at hstep
        cases hbox : s.1.socket.box with
        | none => simp [hbox] at hstep
        | some box =>
          simp only [hbox, Option.some.injEq] at hstep
          subst hstep
          obtain ⟨i1, _, i3, _⟩ := hinv
          have hc : s.1.socket.connected = true := by
            rw [← i1, hbox]
            rfl
          have hsome := i3 hc
          rw [Option.isSome_iff_exists] at hsome
          obtain ⟨tail, htail⟩ := hsome
          refine ⟨by simp [hc], fun _ => hc, ?_, ?_⟩
          · intro _
            rw [sinceLastConnect_append_other t (.recv (.ok packet)) rfl, htail]
            rfl
          · intro _
            refine ⟨tail ++ [.recv (.ok packet)], ?_, ?_⟩
            · rw [sinceLastConnect_append_other t (.recv (.ok packet)) rfl, htail]
              rfl
            · simp [isHandshakeResponse, h1]
      · rw [if_neg h1] at hstep
        by_cases h2 : packet.packetId = 20002
        · rw [if_pos h2] at hstep
          simp only [Option.some.injEq] at hstep
          subst hstep
          exact sessionInv_keep t s _ _ hinv rfl rfl rfl
        · rw [if_neg h2] at hstep
          by_cases h3 : packet.packetId = 20003
          · rw [if_pos h3] at hstep
            simp only [Option.some.injEq] at hstep
            subst hstep
            exact sessionInv_disconnect t s _ _ hinv rfl
          · rw [if_neg h3] at hstep
            simp only [Option.some.injEq] at hstep
            subst hstep
            exact sessionInv_keep t s _ _ hinv rfl rfl rfl

theorem sessionInv_run (t : List Step) :
    ∀ s, connectsWhileDisconnected initState t = true → run initState t = some s →
      SessionInv t s := by
  induction t using List.reverseRecOn with
  | nil =>
    intro s _ hrun
    simp only [run, Option.some.injEq] at hrun
    subst hrun
    refine ⟨rfl, ?_, ?_, ?_⟩ <;> intro h <;> exact absurd h (by decide)
  | append_singleton t st ih =>
    intro s hcwd hrun
    obtain ⟨hcwd1, hcwd2⟩ := connectsWhileDisconnected_append initState t st hcwd
    rw [run_append] at hrun
    cases hprev : run initState t with
    | none => simp [hprev] at hrun
    | some s0 =>
      rw [hprev, Option.some_bind] at hrun
      exact sessionInv_step t s0 s st (ih s0 hcwd1 hprev) (hcwd2 s0 hprev) hrun

/-- C5 (as amended): in every state reachable from the initial session state by connect,
disconnect, send and receiver steps in which `connect` is called only while `connected()`
is false: `established()` is false in the initial state, is false in the state right after
a successful `connect` returns, and is true only if a handshake response (packet id 20001)
has been received since the last successful `connect`. -/
theorem established_only_after_handshake (t : List Step) (s : NetworkManager × World)
    (hseq : connectsWhileDisconnected initState t = true)
    (hrun : run initState t = some s) :
    NetworkManager.init.established = false ∧
    (∀ t0 addr port, t = t0 ++ [.connect addr port true] → s.1.established = false) ∧
    (s.1.established = true →
      ∃ tail, sinceLastConnect t = some tail ∧ tail.any isHandshakeResponse = true) := by
  have hinv := sessionInv_run t s hseq hrun
  have hfour : s.1._established = true →
      ∃ tail, sinceLastConnect t = some tail ∧ tail.any isHandshakeResponse = true :=
    hinv.2.2.2
  refine ⟨rfl, ?_, ?_⟩
  · intro t0 addr port ht
    cases he : s.1._established with
    | false => simp [NetworkManager.established, he]
    | true =>
      obtain ⟨tail, htail, hany⟩ := hfour he
      rw [ht, sinceLastConnect_append_connect t0 (.connect addr port true) rfl] at htail
      simp only [Option.some.injEq] at htail
      subst htail
      simp at hany
  · intro hest
    apply hfour
    simp only [NetworkManager.established, Bool.and_eq_true] at hest
    exact hest.2

/-- Witness for C5: after `connect` and a handshake response the session is established
and the response lies after the `connect`; after a further `disconnect` and `connect` it
is not established. -/
theorem established_only_after_handshake_witness :
    (establishedState.1.established = true ∧
      ∃ tail, sinceLastConnect [.connect "host1" 1000 true, .recv (.ok handshakePacket)]
        = some tail ∧ tail.any isHandshakeResponse = true) ∧
    reconnectedState.1.established = false :=
  ⟨⟨by decide,
    (established_only_after_handshake
      [.connect "host1" 1000 true, .recv (.ok handshakePacket)] establishedState
      (by decide) (by decide)).2.2 (by decide)⟩,
   (established_only_after_handshake
      [.connect "host1" 1000 true, .recv (.ok handshakePacket), .disconnect,
        .connect "host2" 2000 true] reconnectedState
      (by decide) (by decide)).2.1
      [.connect "host1" 1000 true, .recv (.ok handshakePacket), .disconnect] "host2" 2000 rfl⟩

/-- C5 (counterexample to the claim as stated): `connect`, a handshake response, and a
second successful `connect` without a `disconnect` in between. Right after the second
`connect` returns `established()` is true, although nothing was received since it. -/
theorem established_after_second_connect :
    (run initState
      [.connect "host1" 1000 true, .recv (.ok handshakePacket),
        .connect "host2" 2000 true]).map (fun s => s.1.established) = some true ∧
    sinceLastConnect
      [.connect "host1" 1000 true, .recv (.ok handshakePacket),
        .connect "host2" 2000 true] = some [] := by
  decide

/-- C6: in every session state reachable by connect, disconnect, send and receiver steps,
`established()` being true implies `connected()` being true. -/
theorem established_implies_connected (t : List Step) (s : NetworkManager × World)
    (_hrun : run initState t = some s) (hest : s.1.established = true) :
    s.1.connected = true := by
  simp only [NetworkManager.established, Bool.and_eq_true] at hest
  exact hest.1

/-- Witness for C6: the state after `connect` and a handshake response. -/
theorem established_implies_connected_witness :
    run initState [.connect "host1" 1000 true, .recv (.ok handshakePacket)]
      = some establishedState ∧
    establishedState.1.established = true ∧
    establishedState.1.connected = true :=
  ⟨by decide, by decide,
   established_implies_connected
     [.connect "host1" 1000 true, .recv (.ok handshakePacket)] establishedState
     (by decide) (by decide)⟩

/-- C7: `disconnect()` is idempotent: for every manager state, disconnecting twice gives
the same state as disconnecting once; when `connected()` is false `disconnect()` leaves the
state as it is, and when `connected()` is true the resulting state has `connected()` false
and `established()` false. -/
theorem disconnect_idempotent (nm : NetworkManager) :
    nm.disconnect.disconnect = nm.disconnect ∧
    (nm.connected = false → nm.disconnect = nm) ∧
    (nm.connected = true →
      nm.disconnect.connected = false ∧ nm.disconnect.established = false) := by
  cases hc : nm.socket.connected with
  | false =>
    simp [NetworkManager.disconnect, NetworkManager.connected, hc]
  | true =>
    simp [NetworkManager.disconnect, NetworkManager.connected, NetworkManager.established, hc,
      GameSocket.disconnect, GameSocket.cleanupBox]

/-- Witness for C7: disconnecting the initial state changes nothing; disconnecting an
established session clears both flags. -/
theorem disconnect_idempotent_witness :
    NetworkManager.init.disconnect = NetworkManager.init ∧
    (establishedState.1.disconnect.connected = false ∧
      establishedState.1.disconnect.established = false) ∧
    establishedState.1.disconnect.disconnect = establishedState.1.disconnect :=
  ⟨(disconnect_idempotent NetworkManager.init).2.1 (by decide),
   (disconnect_idempotent establishedState.1).2.2 (by decide),
   (disconnect_idempotent establishedState.1).1⟩

/-! ## Listeners -/

/-- C8 (as amended): for every manager state (whatever listeners were registered) and
every packet whose id is none of the ids 20001, 20002, 20003 that the receiver handles
itself: after `removeAllListeners()`, the receiver iteration that gets the packet changes
nothing but to queue one closure for the main thread, and that closure, run with the
listener table still empty, invokes no callback and logs "Unhandled packet" with the id. -/
theorem removeAllListeners_then_unhandled (nm : NetworkManager) (w w1 : World)
    (packet : Packet)
    (hid : packet.packetId ≠ 20001 ∧ packet.packetId ≠ 20002 ∧ packet.packetId ≠ 20003) :
    nm.removeAllListeners.listeners = [] ∧
    threadRecvIter nm.removeAllListeners w (.ok packet) =
      some (nm.removeAllListeners, { w with mainThread := w.mainThread ++ [packet] }) ∧
    runInMainThread nm.removeAllListeners w1 packet =
      { w1 with log := w1.log ++ [unhandledPacketMessage packet.packetId] } := by
  obtain ⟨h1, h2, h3⟩ := hid
  refine ⟨rfl, ?_, ?_⟩
  · simp [threadRecvIter, h1, h2, h3]
  · simp [runInMainThread, NetworkManager.removeAllListeners, mapClear, mapContains]

/-- Witness for C8: a manager with a listener for packet id 4242; after
`removeAllListeners()` a packet with that id is queued for the main thread and logged as
unhandled, and callback 2 is not invoked. -/
theorem removeAllListeners_then_unhandled_witness :
    mapContains listeningManager.listeners 4242 = true ∧
    (listeningManager.removeAllListeners.listeners = [] ∧
    threadRecvIter listeningManager.removeAllListeners World.empty (.ok chatPacket) =
      some (listeningManager.removeAllListeners,
        { World.empty with mainThread := World.empty.mainThread ++ [chatPacket] }) ∧
    runInMainThread listeningManager.removeAllListeners
        { World.empty with mainThread := [chatPacket] } chatPacket =
      { ({ World.empty with mainThread := [chatPacket] } : World) with
        log := ({ World.empty with mainThread := [chatPacket] } : World).log ++
          [unhandledPacketMessage chatPacket.packetId] }) :=
  ⟨by decide,
   removeAllListeners_then_unhandled listeningManager World.empty
     { World.empty with mainThread := [chatPacket] } chatPacket (by decide)⟩

/-- C8 (counterexample to the claim as stated): a listener is registered for packet id
20001. After `removeAllListeners()` the receiver iteration that gets a packet with id 20001
handles it itself: no closure is queued for the main thread and nothing is logged, so no
"Unhandled packet" diagnostic is written. -/
theorem removeAllListeners_reserved_id_not_logged :
    mapContains listeningManager.listeners 20001 = true ∧
    (threadRecvIter listeningManager.removeAllListeners World.empty
      (.ok handshakePacket)).map (fun s => s.2) = some World.empty ∧
    (threadRecvIter listeningManager.removeAllListeners World.empty
      (.ok handshakePacket)).map (fun s => s.2.log) = some [] ∧
    (threadRecvIter listeningManager.removeAllListeners World.empty
      (.ok handshakePacket)).map (fun s => s.2.mainThread) = some [] := by
  decide

/-! ## Ping bookkeeping: frame and uniqueness -/

theorem mapContains_mapAssign_iff {κ α : Type} [DecidableEq κ] (m : List (κ × α)) (k : κ)
    (v : α) (k1 : κ) :
    mapContains (mapAssign m k v) k1 = (mapContains m k1 || decide (k = k1)) := by
  unfold mapAssign
  by_cases h : mapContains m k = true
  · rw [if_pos h]
    have hkeys : mapContains (m.map (fun e => if e.1 = k then (e.1, v) else e)) k1 =
        mapContains m k1 := by
      unfold mapContains
      rw [List.any_map]
      congr 1
      funext e
      by_cases he : e.1 = k <;> simp [he]
    rw [hkeys]
    by_cases hk : k = k1
    · subst hk
      simp [h]
    · simp [hk]
  · rw [if_neg h]
    unfold mapContains
    rw [List.any_append]
    simp

theorem mapContains_of_mapErase {κ α : Type} [DecidableEq κ] (m : List (κ × α)) (k k1 : κ)
    (h : mapContains (mapErase m k) k1 = true) : mapContains m k1 = true := by
  unfold mapContains mapErase at *
  rw [List.any_eq_true] at h ⊢
  obtain ⟨e, he, hk⟩ := h
  exact ⟨e, (List.mem_filter.mp he).1, hk⟩

theorem mapAt_of_mapContains {κ α : Type} [DecidableEq κ] (m : List (κ × α)) (k : κ)
    (h : mapContains m k = true) : ∃ v, mapAt m k = .ok v := by
  unfold mapAt
  cases hfind : m.find? (fun e => decide (e.1 = k)) with
  | some e => exact ⟨e.2, rfl⟩
  | none =>
    rw [List.find?_eq_none] at hfind
    unfold mapContains at h
    rw [List.any_eq_true] at h
    obtain ⟨e, he, hk⟩ := h
    exact absurd hk (hfind e he)

theorem recordPingResponse_roster (cap : Nat) (servers : Roster) (pingId n : Nat) (now : Time) :
    (recordPingResponse cap servers pingId n now).2.1 =
      (recordPingLoop cap pingId n now servers).2 := by
  unfold recordPingResponse
  split <;> rename_i heq <;> rw [heq]

theorem recordPingLoop_frame (cap pingId n : Nat) (now : Time) (servers : Roster) :
    (recordPingLoop cap pingId n now servers).2 = servers ∨
    ∃ pre k g post start,
      servers = pre ++ (k, g) :: post ∧
      (∀ e ∈ pre, mapContains e.2.pendingPings pingId = false) ∧
      mapContains g.pendingPings pingId = true ∧
      mapAt g.pendingPings pingId = .ok start ∧
      (recordPingLoop cap pingId n now servers).2 =
        pre ++ (k, resolved cap pingId n now start g) :: post := by
  induction servers with
  | nil => exact Or.inl rfl
  | cons e rest ih =>
    obtain ⟨k, g⟩ := e
    by_cases hc : mapContains g.pendingPings pingId = true
    · obtain ⟨start, hstart⟩ := mapAt_of_mapContains _ _ hc
      refine Or.inr ⟨[], k, g, rest, start, rfl, by simp, hc, hstart, ?_⟩
      simp [recordPingLoop, hc, hstart, resolved]
    · have hc1 : mapContains g.pendingPings pingId = false := by
        simpa using hc
      rcases ih with hsame | ⟨pre, k1, g1, post, start, hsplit, hpre, hg1, hstart, hres⟩
      · left
        simp [recordPingLoop, hc1, hsame]
      · right
        refine ⟨(k, g) :: pre, k1, g1, post, start, by simp [hsplit], ?_, hg1, hstart, ?_⟩
        · intro e he
          rcases List.mem_cons.mp he with rfl | he1
          · exact hc1
          · exact hpre e he1
        · simp [recordPingLoop, hc1, hres]

theorem holders_recordPingLoop_le (cap pingId n : Nat) (now : Time) (servers : Roster)
    (id : Nat) :
    holders (recordPingLoop cap pingId n now servers).2 id ≤ holders servers id := by
  rcases recordPingLoop_frame cap pingId n now servers with
    hsame | ⟨pre, k, g, post, start, hsplit, _, _, _, hres⟩
  · rw [hsame]
  · rw [hres, hsplit]
    unfold holders
    simp only [List.countP_append, List.countP_cons]
    have hsub : mapContains (resolved cap pingId n now start g).pendingPings id = true →
        mapContains g.pendingPings id = true := mapContains_of_mapErase _ _ _
    by_cases h1 : mapContains (resolved cap pingId n now start g).pendingPings id = true
    · simp [h1, hsub h1]
    · have h2 : (if mapContains (resolved cap pingId n now start g).pendingPings id = true
          then 1 else 0) = 0 := if_neg h1
      rw [h2]
      split <;> omega

theorem holders_modifyServer_same (servers : Roster) (serverId : String)
    (f : GameServerInfo → GameServerInfo) (id : Nat)
    (hf : ∀ g, mapContains (f g).pendingPings id = mapContains g.pendingPings id) :
    holders (modifyServer servers serverId f) id = holders servers id := by
  induction servers with
  | nil => rfl
  | cons e rest ih =>
    obtain ⟨k, g⟩ := e
    unfold holders at ih ⊢
    by_cases hk : k = serverId
    · simp [modifyServer, hk, List.countP_cons, hf]
    · simp [modifyServer, hk, List.countP_cons, ih]

theorem holders_modifyServer_le (servers : Roster) (serverId : String)
    (f : GameServerInfo → GameServerInfo) (id : Nat) :
    holders (modifyServer servers serverId f) id ≤ holders servers id + 1 := by
  induction servers with
  | nil => simp [modifyServer, holders]
  | cons e rest ih =>
    obtain ⟨k, g⟩ := e
    unfold holders at ih ⊢
    by_cases hk : k = serverId
    · simp only [modifyServer, hk, if_true, List.countP_cons]
      split <;> split <;> omega
    · simp only [modifyServer, hk, if_false, List.countP_cons]
      omega

theorem getServer_mem (servers : Roster) (serverId : String) (gsi : GameServerInfo)
    (h : getServer servers serverId = some gsi) : (serverId, gsi) ∈ servers := by
  induction servers with
  | nil => simp [getServer] at h
  | cons e rest ih =>
    obtain ⟨k, g⟩ := e
    by_cases hk : k = serverId
    · simp only [getServer, hk, if_true, Option.some.injEq] at h
      subst h hk
      exact List.mem_cons_self _ _
    · simp only [getServer, hk, if_false] at h
      exact List.mem_cons_of_mem _ (ih h)

theorem totalPending_modifyServer (servers : Roster) (serverId : String)
    (gsi : GameServerInfo) (f : GameServerInfo → GameServerInfo)
    (hget : getServer servers serverId = some gsi)
    (hf : (f gsi).pendingPings.length = gsi.pendingPings.length + 1) :
    totalPending (modifyServer servers serverId f) = totalPending servers + 1 := by
  induction servers with
  | nil => simp [getServer] at hget
  | cons e rest ih =>
    obtain ⟨k, g⟩ := e
    unfold totalPending at ih ⊢
    by_cases hk : k = serverId
    · simp only [getServer, hk, if_true, Option.some.injEq] at hget
      subst hget
      simp only [modifyServer, hk, if_true, List.map_cons, List.sum_cons, hf]
      omega
    · simp only [getServer, hk, if_false] at hget
      simp only [modifyServer, hk, if_false, List.map_cons, List.sum_cons, ih hget]
      omega

theorem holders_zero_not_pending (servers : Roster) (id : Nat) (h : holders servers id = 0)
    (e : String × GameServerInfo) (he : e ∈ servers) :
    mapContains e.2.pendingPings id = false := by
  unfold holders at h
  rw [List.countP_eq_zero] at h
  simpa using h e he

theorem totalPending_addPendingPing (servers : Roster) (serverId : String) (rnd : Nat)
    (now : Time) (hpresent : getServer servers serverId ≠ none)
    (hfresh : holders servers (rnd % 4294967296) = 0) :
    totalPending (addPendingPing servers serverId rnd now).2 = totalPending servers + 1 := by
  cases hget : getServer servers serverId with
  | none => exact absurd hget hpresent
  | some gsi =>
    have hnot := holders_zero_not_pending servers _ hfresh _ (getServer_mem _ _ _ hget)
    simp only [addPendingPing, hget]
    apply totalPending_modifyServer servers serverId gsi _ hget
    have hnot1 : mapContains gsi.pendingPings (rnd % 4294967296) = false := hnot
    simp [mapAssign, hnot1]

theorem holders_applyOp (cap : Nat) (servers : Roster) (op : RosterOp)
    (hinv : ∀ id, holders servers id ≤ 1) (hfresh : idsFresh cap servers [op] = true) :
    ∀ id, holders (applyOp cap servers op) id ≤ 1 := by
  intro id
  cases op with
  | addPendingPing serverId rnd now =>
    simp only [idsFresh, Bool.and_true, decide_eq_true_eq] at hfresh
    simp only [applyOp, addPendingPing]
    cases hget : getServer servers serverId with
    | none => exact hinv id
    | some gsi =>
      simp only
      by_cases hid : rnd % 4294967296 = id
      · have := holders_modifyServer_le servers serverId
          (fun g => { g with
            pendingPings := mapAssign g.pendingPings (rnd % 4294967296) now }) id
        rw [hid] at hfresh
        omega
      · rw [holders_modifyServer_same]
        · exact hinv id
        · intro g
          simp [mapContains_mapAssign_iff, hid]
  | recordPingResponse pingId n now =>
    simp only [applyOp, recordPingResponse_roster]
    exact le_trans (holders_recordPingLoop_le cap pingId n now servers id) (hinv id)

theorem holders_runOps (cap : Nat) (ops : List RosterOp) :
    ∀ servers : Roster, (∀ id, holders servers id ≤ 1) → idsFresh cap servers ops = true →
      ∀ id, holders (runOps cap servers ops) id ≤ 1 := by
  induction ops with
  | nil =>
    intro servers hinv _ id
    exact hinv id
  | cons op rest ih =>
    intro servers hinv hfresh
    simp only [idsFresh, Bool.and_eq_true] at hfresh
    apply ih (applyOp cap servers op)
    · apply holders_applyOp cap servers op hinv
      simp only [idsFresh, Bool.and_true]
      exact hfresh.1
    · exact hfresh.2

theorem recordPingResponse_head (cap : Nat) (k : String) (g : GameServerInfo) (rest : Roster)
    (pingId n : Nat) (start now : Time) :
    (recordPingResponse cap
      ((k, { g with pendingPings := mapAssign g.pendingPings pingId start }) :: rest)
      pingId n now).2.1 =
      (k, resolved cap pingId n now start
        { g with pendingPings := mapAssign g.pendingPings pingId start }) :: rest := by
  rw [recordPingResponse_roster]
  simp [recordPingLoop, mapContains_mapAssign, mapAt_mapAssign, resolved]

theorem recordPingResponse_second (cap : Nat) (k1 k2 : String) (g1 g : GameServerInfo)
    (rest : Roster) (pingId n : Nat) (start now : Time)
    (h1 : mapContains g1.pendingPings pingId = false) :
    (recordPingResponse cap
      ((k1, g1) :: (k2, { g with pendingPings := mapAssign g.pendingPings pingId start }) :: rest)
      pingId n now).2.1 =
      (k1, g1) :: (k2, resolved cap pingId n now start
        { g with pendingPings := mapAssign g.pendingPings pingId start }) :: rest := by
  rw [recordPingResponse_roster]
  simp [recordPingLoop, h1, mapContains_mapAssign, mapAt_mapAssign, resolved]

theorem perm_pair {α : Type} (l : List α) (x y : α) (h : l.Perm [x, y]) :
    l = [x, y] ∨ l = [y, x] := by
  have hlen := h.length_eq
  match l, h, hlen with
  | [p, q], h, _ =>
    have hp : p ∈ [x, y] := h.mem_iff.mp (List.mem_cons_self _ _)
    simp only [List.mem_cons, List.mem_singleton, List.not_mem_nil, or_false] at hp
    rcases hp with rfl | rfl
    · left
      have h1 : [q].Perm [y] := List.Perm.cons_inv h
      rw [List.perm_singleton.mp h1]
    · right
      have h1 : [q].Perm [x] := List.Perm.cons_inv (h.trans (List.Perm.swap p x []))
      rw [List.perm_singleton.mp h1]

theorem pingServers_pair
    (order : List (String × GameServerAddress) → List (String × GameServerAddress))
    (env : Nat → PingEnv) (w : World) (a b : String) (ga gb : GameServerInfo)
    (ia ib : Nat) (hab : a ≠ b)
    (hperm : (order [(a, ga.address), (b, gb.address)]).Perm
      [(a, ga.address), (b, gb.address)])
    (hva : (getServerAddresses order [(a, ga), (b, gb)])[ia]? = some (a, ga.address))
    (hvb : (getServerAddresses order [(a, ga), (b, gb)])[ib]? = some (b, gb.address)) :
    (pingServers order env [(a, ga), (b, gb)] w).1 = .ok () ∧
    (pingServers order env [(a, ga), (b, gb)] w).2.1 =
      [(a, stampPing env ia ga), (b, stampPing env ib gb)] := by
  have hba : ¬ b = a := fun h => hab h.symm
  have hvisit : getServerAddresses order [(a, ga), (b, gb)] =
      order [(a, ga.address), (b, gb.address)] := rfl
  rcases perm_pair _ _ _ hperm with hord | hord
  · rw [hvisit, hord] at hva hvb
    have hia : ia = 0 := by
      rcases ia with _ | _ | ia
      · rfl
      · simp [hba] at hva
      · simp at hva
    have hib : ib = 1 := by
      rcases ib with _ | _ | ib
      · simp [hab] at hvb
      · rfl
      · simp at hvb
    subst hia hib
    simp [pingServers, hvisit, hord, pingServersLoop, addPendingPing, getServer, modifyServer,
      hab, stampPing, pingIdOf]
  · rw [hvisit, hord] at hva hvb
    have hia : ia = 1 := by
      rcases ia with _ | _ | ia
      · simp [hba] at hva
      · rfl
      · simp at hva
    have hib : ib = 0 := by
      rcases ib with _ | _ | ib
      · rfl
      · simp [hab] at hvb
      · simp at hvb
    subst hia hib
    simp [pingServers, hvisit, hord, pingServersLoop, addPendingPing, getServer, modifyServer,
      hab, hba, stampPing, pingIdOf]

/-- C9 (as amended): for a roster with two servers, ids `a ≠ b` with `a` first in the
iteration order of the roster, and for every iteration order of the address map the ping
task loops over: let `ia` and `ib` be the iterations in which the task visits `a` and `b`.
After the task has added one pending ping to each,
* a response to the ping id of `a` with player count `n` gives `a` the view with
  `playerCount = n` and `ping` equal to the time elapsed since its ping was issued, and
  leaves the entry of `b` as it was: same ping, player count and ping history, its ping id
  still pending;
* the same holds with the roles of `a` and `b` exchanged, provided the ping id of `b` is
  not also pending on `a`;
* in general `recordPingResponse` either leaves the roster as it is or rewrites exactly one
  entry, the first one on which the ping id is pending, and leaves every other entry as it
  was. -/
theorem recordPingResponse_leaves_others (cap : Nat)
    (order : List (String × GameServerAddress) → List (String × GameServerAddress))
    (env : Nat → PingEnv) (w : World)
    (a b : String) (ga gb : GameServerInfo) (ia ib : Nat) (n : Nat) (now : Time)
    (hab : a ≠ b)
    (hperm : (order [(a, ga.address), (b, gb.address)]).Perm
      [(a, ga.address), (b, gb.address)])
    (hva : (getServerAddresses order [(a, ga), (b, gb)])[ia]? = some (a, ga.address))
    (hvb : (getServerAddresses order [(a, ga), (b, gb)])[ib]? = some (b, gb.address)) :
    (pingServers order env [(a, ga), (b, gb)] w).1 = .ok () ∧
    (getServerView
        (recordPingResponse cap (pingServers order env [(a, ga), (b, gb)] w).2.1
          (pingIdOf env ia) n now).2.1 a =
        .ok { ping := now - (env ia).now, playerCount := n } ∧
      getServer
        (recordPingResponse cap (pingServers order env [(a, ga), (b, gb)] w).2.1
          (pingIdOf env ia) n now).2.1 b =
        some { gb with
          pendingPings := mapAssign gb.pendingPings (pingIdOf env ib) (env ib).now } ∧
      mapContains (mapAssign gb.pendingPings (pingIdOf env ib) (env ib).now)
        (pingIdOf env ib) = true) ∧
    (mapContains (mapAssign ga.pendingPings (pingIdOf env ia) (env ia).now)
        (pingIdOf env ib) = false →
      getServerView
        (recordPingResponse cap (pingServers order env [(a, ga), (b, gb)] w).2.1
          (pingIdOf env ib) n now).2.1 b =
        .ok { ping := now - (env ib).now, playerCount := n } ∧
      getServer
        (recordPingResponse cap (pingServers order env [(a, ga), (b, gb)] w).2.1
          (pingIdOf env ib) n now).2.1 a =
        some { ga with
          pendingPings := mapAssign ga.pendingPings (pingIdOf env ia) (env ia).now } ∧
      mapContains (mapAssign ga.pendingPings (pingIdOf env ia) (env ia).now)
        (pingIdOf env ia) = true) ∧
    (∀ (servers : Roster) (pingId : Nat),
      (recordPingResponse cap servers pingId n now).2.1 = servers ∨
      ∃ pre k g post start,
        servers = pre ++ (k, g) :: post ∧
        (∀ e ∈ pre, mapContains e.2.pendingPings pingId = false) ∧
        mapContains g.pendingPings pingId = true ∧
        (recordPingResponse cap servers pingId n now).2.1 =
          pre ++ (k, resolved cap pingId n now start g) :: post) := by
  obtain ⟨hok, hpinged⟩ := pingServers_pair order env w a b ga gb ia ib hab hperm hva hvb
  refine ⟨hok, ?_, ?_, ?_⟩
  · rw [hpinged]
    unfold stampPing
    rw [recordPingResponse_head]
    refine ⟨?_, ?_, mapContains_mapAssign _ _ _⟩
    · simp [getServerView, getServer, resolved]
    · simp [getServer, hab]
  · intro hfresh
    rw [hpinged]
    unfold stampPing
    rw [recordPingResponse_second cap a b _ gb [] _ n (env ib).now now hfresh]
    refine ⟨?_, ?_, mapContains_mapAssign _ _ _⟩
    · simp [getServerView, getServer, resolved, hab]
    · simp [getServer]
  · intro servers pingId
    rw [recordPingResponse_roster]
    rcases recordPingLoop_frame cap pingId n now servers with
      hsame | ⟨pre, k, g, post, start, hsplit, hpre, hg, _, hres⟩
    · exact Or.inl hsame
    · exact Or.inr ⟨pre, k, g, post, start, hsplit, hpre, hg, hres⟩

/-- Witness for C9: servers "A" and "B"; the address map is iterated in reverse, so the
task visits "B" first (ping id 7 at time 100) and "A" second (ping id 8 at time 101). The
response for the ping id of "A" (8) with player count 5 at time 140 gives "A" the view
(39, 5) and leaves "B" with its ping id 7 pending. -/
theorem recordPingResponse_leaves_others_witness :
    (pingServers List.reverse (quietEnv (fun i => 7 + i)) rosterAB World.empty).2.1 =
      [("A", { freshInfo "host1" 1000 with pendingPings := [(8, 101)] }),
       ("B", { freshInfo "host2" 2000 with pendingPings := [(7, 100)] })] ∧
    (getServerView
        (recordPingResponse 3
          (pingServers List.reverse (quietEnv (fun i => 7 + i)) rosterAB World.empty).2.1
          8 5 140).2.1 "A" = .ok { ping := 39, playerCount := 5 } ∧
      getServer
        (recordPingResponse 3
          (pingServers List.reverse (quietEnv (fun i => 7 + i)) rosterAB World.empty).2.1
          8 5 140).2.1 "B" = some { freshInfo "host2" 2000 with pendingPings := [(7, 100)] } ∧
      mapContains [((7 : Nat), (100 : Time))] 7 = true) :=
  ⟨by decide,
   (recordPingResponse_leaves_others 3 List.reverse (quietEnv (fun i => 7 + i)) World.empty
      "A" "B" (freshInfo "host1" 1000) (freshInfo "host2" 2000) 1 0 5 140 (by decide)
      (List.reverse_perm _) (by decide) (by decide)).2.1⟩

/-- C9 (counterexample to the claim as stated): servers "B" and "A", in this iteration order
of the roster, and a generator that yields 7 twice. Whether the task visits the address map
in the order of the roster or in reverse, ping id 7 is pending on both servers after it.
The response to the ping id of "A" (7) with player count 5 resolves "B": the view of "A"
keeps player count 0, while the entry of "B" changes and no longer has its ping id
pending. -/
theorem recordPingResponse_resolves_other_server :
    ((pingServers id (quietEnv (fun _ => 7)) rosterBA World.empty).2.1 =
        [("B", { freshInfo "host2" 2000 with pendingPings := [(7, 100)] }),
         ("A", { freshInfo "host1" 1000 with pendingPings := [(7, 101)] })] ∧
      getServerView
          (recordPingResponse 3 (pingServers id (quietEnv (fun _ => 7)) rosterBA World.empty).2.1
            7 5 140).2.1 "A" = .ok { ping := -1, playerCount := 0 } ∧
      getServer
          (recordPingResponse 3 (pingServers id (quietEnv (fun _ => 7)) rosterBA World.empty).2.1
            7 5 140).2.1 "B" =
        some { freshInfo "host2" 2000 with
          ping := 40, playerCount := 5, pingHistory := [40] }) ∧
    ((pingServers List.reverse (quietEnv (fun _ => 7)) rosterBA World.empty).2.1 =
        [("B", { freshInfo "host2" 2000 with pendingPings := [(7, 101)] }),
         ("A", { freshInfo "host1" 1000 with pendingPings := [(7, 100)] })] ∧
      getServerView
          (recordPingResponse 3
            (pingServers List.reverse (quietEnv (fun _ => 7)) rosterBA World.empty).2.1
            7 5 140).2.1 "A" = .ok { ping := -1, playerCount := 0 } ∧
      getServer
          (recordPingResponse 3
            (pingServers List.reverse (quietEnv (fun _ => 7)) rosterBA World.empty).2.1
            7 5 140).2.1 "B" =
        some { freshInfo "host2" 2000 with
          ping := 39, playerCount := 5, pingHistory := [39] }) := by
  decide

/-- C10 (as amended): in every roster state reached from a roster with empty
`pendingPings` maps by a sequence of `addPendingPing` and `recordPingResponse` calls in
which every generated ping id is, when generated, pending on no server: no ping id is
pending on two servers, and a further `addPendingPing` on an existing server with such an
id increases the total number of pending pings by exactly one. -/
theorem pending_ids_unique_when_fresh (cap : Nat) (servers : Roster) (ops : List RosterOp)
    (hempty : ∀ e ∈ servers, e.2.pendingPings = [])
    (hfresh : idsFresh cap servers ops = true) :
    (∀ id, holders (runOps cap servers ops) id ≤ 1) ∧
    (∀ serverId rnd now, getServer (runOps cap servers ops) serverId ≠ none →
      holders (runOps cap servers ops) (rnd % 4294967296) = 0 →
      totalPending (addPendingPing (runOps cap servers ops) serverId rnd now).2 =
        totalPending (runOps cap servers ops) + 1) := by
  constructor
  · apply holders_runOps cap ops servers _ hfresh
    intro id
    have hzero : holders servers id = 0 := by
      unfold holders
      rw [List.countP_eq_zero]
      intro e he
      simp [hempty e he, mapContains]
    omega
  · intro serverId rnd now hpresent hnew
    exact totalPending_addPendingPing _ serverId rnd now hpresent hnew

/-- Witness for C10: pings 7 and 8 issued to "A" and "B", ping 7 answered; a further ping
with id 9 to "A" raises the number of pending pings from 1 to 2. -/
theorem pending_ids_unique_when_fresh_witness :
    (∀ id, holders (runOps 3 rosterAB
      [.addPendingPing "A" 7 100, .addPendingPing "B" 8 101,
        .recordPingResponse 7 5 140]) id ≤ 1) ∧
    totalPending (addPendingPing (runOps 3 rosterAB
      [.addPendingPing "A" 7 100, .addPendingPing "B" 8 101,
        .recordPingResponse 7 5 140]) "A" 9 150).2 =
      totalPending (runOps 3 rosterAB
        [.addPendingPing "A" 7 100, .addPendingPing "B" 8 101,
          .recordPingResponse 7 5 140]) + 1 :=
  ⟨(pending_ids_unique_when_fresh 3 rosterAB
      [.addPendingPing "A" 7 100, .addPendingPing "B" 8 101, .recordPingResponse 7 5 140]
      (by decide) (by decide)).1,
   (pending_ids_unique_when_fresh 3 rosterAB
      [.addPendingPing "A" 7 100, .addPendingPing "B" 8 101, .recordPingResponse 7 5 140]
      (by decide) (by decide)).2 "A" 9 150 (by decide) (by decide)⟩

/-- C10 (counterexample to the claim as stated): the generator yields 7 twice. Issued to
"A" and to "B", ping id 7 is pending on two servers; issued twice to "A", the second
`addPendingPing` leaves the total number of pending pings at 1. -/
theorem pending_ids_collide :
    holders (runOps 3 rosterAB [.addPendingPing "A" 7 100, .addPendingPing "B" 7 101]) 7 = 2 ∧
    getServer rosterAB "A" ≠ none ∧
    totalPending (runOps 3 rosterAB [.addPendingPing "A" 7 100]) = 1 ∧
    totalPending
      (addPendingPing (runOps 3 rosterAB [.addPendingPing "A" 7 100]) "A" 7 101).2 = 1 := by
  decide

/-! ## Teardown -/

theorem threadMainFunc_stopped (outcome : Nat → Option String) (fuel : Nat)
    (nm : NetworkManager) (w : World) (h : nm._running = false) :
    threadMainFunc outcome (fuel + 1) nm w = some (nm, w) := by
  simp [threadMainFunc, h]

theorem threadMainIter_keeps (outcome : Nat → Option String) (nm : NetworkManager) (w : World) :
    (threadMainIter outcome nm w).1.socket = nm.socket ∧
    (threadMainIter outcome nm w).1._running = nm._running ∧
    (threadMainIter outcome nm w).1._established = nm._established := by
  unfold threadMainIter
  split <;> exact ⟨rfl, rfl, rfl⟩

/-- What the destructor does in every state, given fuel for one loop test: the sender
thread ends in a state `j` with the socket untouched; the flag `_running` is false, the
packets still queued in `j` are released and the queue is emptied, nothing more is
transmitted, and `connected()` is what it was before the destructor ran. -/
theorem destructor_effect (outcome : Nat → Option String) (midIteration : Bool) (fuel : Nat)
    (nm : NetworkManager) (w : World) :
    ∃ j,
      joinThreadMain outcome midIteration (fuel + 1) { nm with _running := false } w = some j ∧
      nm.destructor outcome midIteration (fuel + 1) w =
        some ({ j.1 with packetQueue := [] },
          { j.2 with released := j.2.released ++ j.1.packetQueue },
          ((if j.1.socket.connected then
              ["waiting for threads to die.."] ++ ["disconnecting from the server.."]
            else ["waiting for threads to die.."]) ++ ["cleaning up.."]) ++ ["Goodbye!"]) ∧
      j.1._running = false ∧
      j.1.socket = nm.socket ∧
      (midIteration = false → j = ({ nm with _running := false }, w)) := by
  have hjoin : ∀ j, joinThreadMain outcome midIteration (fuel + 1)
      { nm with _running := false } w = some j →
      nm.destructor outcome midIteration (fuel + 1) w =
        some ({ j.1 with packetQueue := [] },
          { j.2 with released := j.2.released ++ j.1.packetQueue },
          ((if j.1.socket.connected then
              ["waiting for threads to die.."] ++ ["disconnecting from the server.."]
            else ["waiting for threads to die.."]) ++ ["cleaning up.."]) ++ ["Goodbye!"]) := by
    intro j hj
    simp only [NetworkManager.destructor, hj, queuePopAll]
  cases midIteration with
  | false =>
    have hj : joinThreadMain outcome false (fuel + 1) { nm with _running := false } w =
        some ({ nm with _running := false }, w) := by
      simp [joinThreadMain, threadMainFunc]
    exact ⟨_, hj, hjoin _ hj, rfl, rfl, fun _ => rfl⟩
  | true =>
    obtain ⟨h1, h2, _⟩ := threadMainIter_keeps outcome { nm with _running := false } w
    have hj : joinThreadMain outcome true (fuel + 1) { nm with _running := false } w =
        some (threadMainIter outcome { nm with _running := false } w) := by
      simp only [joinThreadMain, if_true]
      exact threadMainFunc_stopped outcome fuel _ _ h2
    exact ⟨_, hj, hjoin _ hj, h2, h1, fun h => absurd h (by decide)⟩

/-- C11 (evaluation at the failing input): the destructor runs on a connected manager with
one queued packet while the sender thread is at its loop test. Afterwards the flag
`_running` is false and the queued packet has been released without being transmitted, but
`connected()` is still true: the destructor only logs "disconnecting from the server..". -/
theorem destructor_keeps_connection_open :
    queuedManager.connected = true ∧
    queuedManager.packetQueue = [chatPacket] ∧
    queuedManager.destructor flakyOutcome false 1 World.empty =
      some ({ queuedManager with _running := false, packetQueue := [] },
        { World.empty with released := [chatPacket] },
        ["waiting for threads to die..", "disconnecting from the server..", "cleaning up..",
          "Goodbye!"]) ∧
    (queuedManager.destructor flakyOutcome false 1 World.empty).map
      (fun r => r.1.connected) = some true ∧
    (queuedManager.destructor flakyOutcome false 1 World.empty).map
      (fun r => r.2.1.transmitted) = some [] := by
  decide

/-! ## Dispatch of received packets -/

theorem mapContains_of_mapAt {κ α : Type} [DecidableEq κ] (m : List (κ × α)) (k : κ) (v : α)
    (h : mapAt m k = .ok v) : mapContains m k = true := by
  unfold mapAt at h
  cases hfind : m.find? (fun e => decide (e.1 = k)) with
  | none => simp [hfind] at h
  | some e =>
    unfold mapContains
    rw [List.any_eq_true]
    exact ⟨e, List.mem_of_find?_eq_some hfind,
      @List.find?_some _ (fun e => decide (e.1 = k)) e m hfind⟩

/-- C12: for every manager state (so every listener table) and every received packet:
* with id 20001, 20002 or 20003 the receiver iteration handles the packet itself: it sets
  `_established` (20001, given the box of the connection), does nothing (20002), or reports
  the reason and disconnects (20003); it queues no closure for the main thread and invokes
  no listener, whatever is registered for the id;
* with any other id it changes nothing but to queue one closure, and that closure, run in
  a state `nm1`, invokes exactly the callback registered for the id in `nm1`, once, with the
  packet, or logs the packet as unhandled when none is registered; a callback registered
  with `addListener` is the one invoked. -/
theorem receiver_dispatch (nm : NetworkManager) (w : World) (packet : Packet) :
    (packet.packetId = 20001 →
      (∀ box, nm.socket.box = some box →
        threadRecvIter nm w (.ok packet) =
          some ({ nm with
                  socket := { nm.socket with box := some (box.setPeerKey packet.key) }
                  _established := true }, w)) ∧
      (∀ s1, threadRecvIter nm w (.ok packet) = some s1 →
        s1.2 = w ∧ s1.1.listeners = nm.listeners)) ∧
    (packet.packetId = 20002 → threadRecvIter nm w (.ok packet) = some (nm, w)) ∧
    (packet.packetId = 20003 →
      threadRecvIter nm w (.ok packet) =
        some (nm.disconnect,
          { w with errors := w.errors ++ [serverDisconnectMessage packet.message] }) ∧
      nm.disconnect.listeners = nm.listeners) ∧
    (packet.packetId ≠ 20001 ∧ packet.packetId ≠ 20002 ∧ packet.packetId ≠ 20003 →
      threadRecvIter nm w (.ok packet) =
        some (nm, { w with mainThread := w.mainThread ++ [packet] }) ∧
      (∀ (nm1 : NetworkManager) (w1 : World) (callback : PacketCallback),
        mapAt nm1.listeners packet.packetId = .ok callback →
        runInMainThread nm1 w1 packet =
          { w1 with invoked := w1.invoked ++ [(callback, packet)] }) ∧
      (∀ (nm1 : NetworkManager) (w1 : World),
        mapContains nm1.listeners packet.packetId = false →
        runInMainThread nm1 w1 packet =
          { w1 with log := w1.log ++ [unhandledPacketMessage packet.packetId] }) ∧
      (∀ (nm1 : NetworkManager) (w1 : World) (callback : PacketCallback),
        runInMainThread (nm1.addListener packet.packetId callback) w1 packet =
          { w1 with invoked := w1.invoked ++ [(callback, packet)] })) := by
  refine ⟨?_, ?_, ?_, ?_⟩
  · intro h1
    constructor
    · intro box hbox
      simp [threadRecvIter, h1, hbox]
    · intro s1 hs1
      cases hbox : nm.socket.box with
      | none => simp [threadRecvIter, h1, hbox] at hs1
      | some box =>
        simp only [threadRecvIter, h1, if_true, hbox, Option.some.injEq] at hs1
        subst hs1
        exact ⟨rfl, rfl⟩
  · intro h2
    simp [threadRecvIter, h2]
  · intro h3
    constructor
    · simp [threadRecvIter, h3]
    · unfold NetworkManager.disconnect
      split <;> rfl
  · rintro ⟨h1, h2, h3⟩
    refine ⟨by simp [threadRecvIter, h1, h2, h3], ?_, ?_, ?_⟩
    · intro nm1 w1 callback hcb
      have hc := mapContains_of_mapAt _ _ _ hcb
      simp [runInMainThread, hc, hcb]
    · intro nm1 w1 hc
      simp [runInMainThread, hc]
    · intro nm1 w1 callback
      simp [runInMainThread, NetworkManager.addListener, mapContains_mapAssign,
        mapAt_mapAssign]

/-- Witness for C12: a connected manager with callback 1 registered for id 20001 and
callback 2 for id 4242. A handshake response is handled by the receiver (the world, and
with it the list of invocations, stays as it was); a packet with id 4242 is queued for the
main thread, where callback 2 is invoked with it. -/
theorem receiver_dispatch_witness :
    mapContains listeningManager.listeners 20001 = true ∧
    threadRecvIter listeningManager World.empty (.ok handshakePacket) =
      some ({ listeningManager with
              socket := { listeningManager.socket with
                box := some (CryptoBox.setPeerKey { peerKey := none } handshakePacket.key) }
              _established := true }, World.empty) ∧
    threadRecvIter listeningManager World.empty (.ok chatPacket) =
      some (listeningManager,
        { World.empty with mainThread := World.empty.mainThread ++ [chatPacket] }) ∧
    runInMainThread listeningManager World.empty chatPacket =
      { World.empty with invoked := World.empty.invoked ++ [(2, chatPacket)] } :=
  ⟨by decide,
   ((receiver_dispatch listeningManager World.empty handshakePacket).1 (by decide)).1
     { peerKey := none } (by decide),
   ((receiver_dispatch listeningManager World.empty chatPacket).2.2.2 (by decide)).1,
   ((receiver_dispatch listeningManager World.empty chatPacket).2.2.2 (by decide)).2.1
     listeningManager World.empty 2 (by decide)⟩

/-! ## The ping task -/

theorem getServer_append_new (pre post : Roster) (k : String) (g : GameServerInfo)
    (hk : k ∉ pre.map Prod.fst) : getServer (pre ++ (k, g) :: post) k = some g := by
  induction pre with
  | nil => simp [getServer]
  | cons e rest ih =>
    obtain ⟨k1, g1⟩ := e
    simp only [List.map_cons, List.mem_cons, not_or] at hk
    have hne : ¬ k1 = k := fun h => hk.1 h.symm
    simp [getServer, hne, ih hk.2]

theorem modifyServer_append_new (pre post : Roster) (k : String) (g : GameServerInfo)
    (f : GameServerInfo → GameServerInfo) (hk : k ∉ pre.map Prod.fst) :
    modifyServer (pre ++ (k, g) :: post) k f = pre ++ (k, f g) :: post := by
  induction pre with
  | nil => simp [modifyServer]
  | cons e rest ih =>
    obtain ⟨k1, g1⟩ := e
    simp only [List.map_cons, List.mem_cons, not_or] at hk
    have hne : ¬ k1 = k := fun h => hk.1 h.symm
    simp [modifyServer, hne, ih hk.2]

theorem pingServersLoop_cons (env : Nat → PingEnv) (i : Nat) (servers servers1 : Roster)
    (w : World) (serverId : String) (address : GameServerAddress)
    (rest : List (String × GameServerAddress)) (pingId : Nat)
    (hadd : addPendingPing servers serverId (env i).rnd (env i).now = (.ok pingId, servers1)) :
    pingServersLoop env i servers w ((serverId, address) :: rest) =
      pingServersLoop env (i + 1) servers1
        { w with
          pingCalls := w.pingCalls ++ (pingTry (env i) address (PingPacket.create pingId)).1
          warnings :=
            w.warnings ++ (pingTry (env i) address (PingPacket.create pingId)).2.toList
          released := w.released ++ [PingPacket.create pingId] } rest := by
  rw [pingServersLoop]
  simp only [hadd]
  cases (pingTry (env i) address (PingPacket.create pingId)).2 with
  | none => simp
  | some what => simp



theorem getServer_modifyServer_eq (servers : Roster) (k k1 : String)
    (f : GameServerInfo → GameServerInfo) :
    getServer (modifyServer servers k f) k1 =
      if k1 = k then (getServer servers k).map f else getServer servers k1 := by
  induction servers with
  | nil => simp [getServer, modifyServer]
  | cons e rest ih =>
    obtain ⟨k0, g0⟩ := e
    by_cases h0 : k0 = k
    · subst h0
      by_cases h1 : k1 = k0
      · subst h1
        simp [getServer, modifyServer]
      · have h10 : ¬ k0 = k1 := fun h => h1 h.symm
        simp [getServer, modifyServer, h1, h10]
    · by_cases h1 : k1 = k
      · subst h1
        simp only [modifyServer, h0, if_false, getServer, if_true]
        rw [ih, if_pos rfl]
      · simp only [modifyServer, h0, if_false, getServer, h1]
        rw [ih, if_neg h1]

theorem modifyServer_keys (servers : Roster) (k : String)
    (f : GameServerInfo → GameServerInfo) :
    (modifyServer servers k f).map Prod.fst = servers.map Prod.fst := by
  induction servers with
  | nil => rfl
  | cons e rest ih =>
    obtain ⟨k0, g0⟩ := e
    by_cases h0 : k0 = k
    · simp [modifyServer, h0]
    · simp [modifyServer, h0, ih]

theorem getServer_of_mem (servers : Roster) (k : String) (g : GameServerInfo)
    (h : (k, g) ∈ servers) : getServer servers k ≠ none := by
  induction servers with
  | nil => simp at h
  | cons e rest ih =>
    obtain ⟨k0, g0⟩ := e
    by_cases h0 : k0 = k
    · simp [getServer, h0]
    · rcases List.mem_cons.mp h with heq | hrest
      · exact absurd (congrArg Prod.fst heq).symm h0
      · simpa [getServer, h0] using ih hrest

theorem pingServersLoop_spec (env : Nat → PingEnv) (rest : List (String × GameServerAddress)) :
    ∀ (s : Roster) (i : Nat) (w : World),
      (∀ e ∈ rest, getServer s e.1 ≠ none) → (rest.map Prod.fst).Nodup →
      (pingServersLoop env i s w rest).1 = .ok () ∧
      (pingServersLoop env i s w rest).2.2 =
        { w with
          pingCalls := w.pingCalls ++ (rest.enumFrom i).flatMap
            (fun p => (pingTry (env p.1) p.2.2 (PingPacket.create (pingIdOf env p.1))).1)
          warnings := w.warnings ++ (rest.enumFrom i).filterMap
            (fun p => (pingTry (env p.1) p.2.2 (PingPacket.create (pingIdOf env p.1))).2)
          released := w.released ++
            (rest.enumFrom i).map (fun p => PingPacket.create (pingIdOf env p.1)) } ∧
      (pingServersLoop env i s w rest).2.1.map Prod.fst = s.map Prod.fst ∧
      (∀ k, k ∉ rest.map Prod.fst →
        getServer (pingServersLoop env i s w rest).2.1 k = getServer s k) ∧
      (∀ j k addr, rest[j]? = some (k, addr) →
        getServer (pingServersLoop env i s w rest).2.1 k =
          (getServer s k).map (stampPing env (i + j))) := by
  induction rest with
  | nil =>
    intro s i w _ _
    refine ⟨rfl, ?_, rfl, fun _ _ => rfl, ?_⟩
    · simp [pingServersLoop]
    · intro j k addr h
      simp at h
  | cons e rest ih =>
    intro s i w hpresent hnodup
    obtain ⟨k0, a0⟩ := e
    rw [List.map_cons, List.nodup_cons] at hnodup
    obtain ⟨hk0, hnodup1⟩ := hnodup
    have hsome : getServer s k0 ≠ none := hpresent (k0, a0) (List.mem_cons_self _ _)
    obtain ⟨g0, hg0⟩ := Option.ne_none_iff_exists'.mp hsome
    have hadd : addPendingPing s k0 (env i).rnd (env i).now =
        (.ok (pingIdOf env i), modifyServer s k0 (stampPing env i)) := by
      simp only [addPendingPing, hg0]
      rfl
    have hpresent1 : ∀ e ∈ rest,
        getServer (modifyServer s k0 (stampPing env i)) e.1 ≠ none := by
      intro e he
      rw [getServer_modifyServer_eq]
      by_cases hek : e.1 = k0
      · rw [if_pos hek, hg0]
        simp
      · rw [if_neg hek]
        exact hpresent e (List.mem_cons_of_mem _ he)
    rw [pingServersLoop_cons env i s _ w k0 a0 rest _ hadd]
    obtain ⟨h1, h2, h3, h4, h5⟩ := ih (modifyServer s k0 (stampPing env i)) (i + 1) _
      hpresent1 hnodup1
    refine ⟨h1, ?_, ?_, ?_, ?_⟩
    · rw [h2]
      cases htry : (pingTry (env i) a0 (PingPacket.create (pingIdOf env i))).2 with
      | none => simp [List.enumFrom_cons, htry, List.append_assoc]
      | some what => simp [List.enumFrom_cons, htry, List.append_assoc]
    · rw [h3, modifyServer_keys]
    · intro k hk
      simp only [List.map_cons, List.mem_cons, not_or] at hk
      rw [h4 k hk.2, getServer_modifyServer_eq, if_neg hk.1]
    · intro j k addr hj
      cases j with
      | zero =>
        simp only [List.getElem?_cons_zero, Option.some.injEq, Prod.mk.injEq] at hj
        obtain ⟨rfl, _⟩ := hj
        rw [h4 k0 hk0, getServer_modifyServer_eq, if_pos rfl]
        rfl
      | succ j =>
        rw [List.getElem?_cons_succ] at hj
        have hmem : k ∈ rest.map Prod.fst :=
          List.mem_map.mpr ⟨(k, addr), List.getElem?_mem hj, rfl⟩
        have hne : ¬ k = k0 := fun h => hk0 (h ▸ hmem)
        rw [h5 j k addr hj, getServer_modifyServer_eq, if_neg hne]
        have hidx : i + 1 + j = i + (j + 1) := by omega
        rw [hidx]

theorem pingTry_explicit (e : PingEnv) (address : GameServerAddress) (packet : Packet) :
    pingTry e address packet =
      (if e.connectFails.isSome then [PingSocketCall.connect address.ip address.port]
        else if e.sendFails.isSome then
          [PingSocketCall.connect address.ip address.port, PingSocketCall.sendPacket packet]
        else
          [PingSocketCall.connect address.ip address.port, PingSocketCall.sendPacket packet,
            PingSocketCall.disconnect],
       (e.connectFails.or e.sendFails).or e.disconnectFails) := by
  unfold pingTry
  cases h1 : e.connectFails with
  | some what => simp [Option.or]
  | none =>
    cases h2 : e.sendFails with
    | some what => simp [Option.or]
    | none => simp [Option.or]

theorem countP_enumFrom_index {α : Type} (P : Nat → Bool) (l : List α) (i : Nat) :
    (l.enumFrom i).countP (fun p => P p.1) = (List.range' i l.length).countP P := by
  induction l generalizing i with
  | nil => rfl
  | cons a rest ih =>
    rw [List.enumFrom_cons, List.length_cons, List.range'_succ, List.countP_cons,
      List.countP_cons, ih (i + 1)]

theorem pingCalls_connect_count (env : Nat → PingEnv) (l : List (String × GameServerAddress))
    (i : Nat) :
    ((l.enumFrom i).flatMap
      (fun p => (pingTry (env p.1) p.2.2 (PingPacket.create (pingIdOf env p.1))).1)).countP
      isConnectCall = l.length := by
  induction l generalizing i with
  | nil => rfl
  | cons e rest ih =>
    rw [List.enumFrom_cons, List.flatMap_cons, List.countP_append, ih (i + 1)]
    have h1 : (pingTry (env i) e.2 (PingPacket.create (pingIdOf env i))).1.countP
        isConnectCall = 1 := by
      rw [pingTry_explicit]
      split
      · rfl
      · split <;> rfl
    simp only [h1, List.length_cons]
    omega

theorem pingCalls_send_count (env : Nat → PingEnv) (l : List (String × GameServerAddress))
    (i : Nat) :
    ((l.enumFrom i).flatMap
      (fun p => (pingTry (env p.1) p.2.2 (PingPacket.create (pingIdOf env p.1))).1)).countP
      isSendCall = (l.enumFrom i).countP (fun p => (env p.1).connectFails.isNone) := by
  induction l generalizing i with
  | nil => rfl
  | cons e rest ih =>
    rw [List.enumFrom_cons, List.flatMap_cons, List.countP_append, ih (i + 1),
      List.countP_cons]
    have h1 : (pingTry (env i) e.2 (PingPacket.create (pingIdOf env i))).1.countP
        isSendCall = if (env i).connectFails.isNone = true then 1 else 0 := by
      rw [pingTry_explicit]
      cases (env i).connectFails with
      | some what => rfl
      | none =>
        cases (env i).sendFails <;> rfl
    simp only [h1]
    omega

/-- C13 (as amended): for every roster with distinct server ids, every iteration order of
the address map the task loops over, and every pattern of connect, send and disconnect
failures on the ping socket, processing one `PingServers` task returns normally and
* keeps the roster entries and their order, and stores, for every roster entry, the ping
  id generated in the iteration `i` that visits it, with the clock reading of that
  iteration, in the `pendingPings` of that entry; this is exactly one new pending ping when
  the id was not yet pending on the entry;
* makes, in each iteration, one connect attempt, then one send attempt unless the connect
  failed, then a disconnect unless the connect or the send failed: exactly one connect
  attempt per roster entry, and one send attempt for each iteration whose connect did not
  fail;
* reports the first failure of an iteration as one warning, in iteration order, and goes on
  with the next entry; every ping packet is released. -/
theorem pingServers_probes_every_entry
    (order : List (String × GameServerAddress) → List (String × GameServerAddress))
    (env : Nat → PingEnv) (servers : Roster) (w : World)
    (hkeys : (servers.map Prod.fst).Nodup)
    (hperm : (order (servers.map (fun e => (e.1, e.2.address)))).Perm
      (servers.map (fun e => (e.1, e.2.address)))) :
    (pingServers order env servers w).1 = .ok () ∧
    (pingServers order env servers w).2.1.map Prod.fst = servers.map Prod.fst ∧
    (∀ k g, getServer servers k = some g →
      ∃ i, i < servers.length ∧
        (getServerAddresses order servers)[i]? = some (k, g.address) ∧
        getServer (pingServers order env servers w).2.1 k =
          some { g with
            pendingPings := mapAssign g.pendingPings (pingIdOf env i) (env i).now } ∧
        mapAt (mapAssign g.pendingPings (pingIdOf env i) (env i).now) (pingIdOf env i) =
          .ok (env i).now ∧
        (mapContains g.pendingPings (pingIdOf env i) = false →
          mapAssign g.pendingPings (pingIdOf env i) (env i).now =
            g.pendingPings ++ [(pingIdOf env i, (env i).now)])) ∧
    (pingServers order env servers w).2.2 =
      { w with
        pingCalls := w.pingCalls ++ (getServerAddresses order servers).enum.flatMap
          (fun p =>
            if (env p.1).connectFails.isSome then
              [PingSocketCall.connect p.2.2.ip p.2.2.port]
            else if (env p.1).sendFails.isSome then
              [PingSocketCall.connect p.2.2.ip p.2.2.port,
                PingSocketCall.sendPacket (PingPacket.create (pingIdOf env p.1))]
            else
              [PingSocketCall.connect p.2.2.ip p.2.2.port,
                PingSocketCall.sendPacket (PingPacket.create (pingIdOf env p.1)),
                PingSocketCall.disconnect])
        warnings := w.warnings ++ (getServerAddresses order servers).enum.filterMap
          (fun p =>
            ((env p.1).connectFails.or (env p.1).sendFails).or (env p.1).disconnectFails)
        released := w.released ++ (getServerAddresses order servers).enum.map
          (fun p => PingPacket.create (pingIdOf env p.1)) } ∧
    ((pingServers order env servers w).2.2.pingCalls.drop w.pingCalls.length).countP
      isConnectCall = servers.length ∧
    ((pingServers order env servers w).2.2.pingCalls.drop w.pingCalls.length).countP
      isSendCall = (List.range servers.length).countP (fun i => (env i).connectFails.isNone) := by
  have hlen : (getServerAddresses order servers).length = servers.length := by
    unfold getServerAddresses
    rw [hperm.length_eq, List.length_map]
  have hvisitkeys : ((getServerAddresses order servers).map Prod.fst).Nodup := by
    have hp := hperm.map Prod.fst
    rw [List.map_map] at hp
    exact hp.nodup_iff.mpr hkeys
  have hpresent : ∀ e ∈ getServerAddresses order servers, getServer servers e.1 ≠ none := by
    intro e he
    have he1 := hperm.mem_iff.mp he
    rw [List.mem_map] at he1
    obtain ⟨e0, he0, rfl⟩ := he1
    exact getServer_of_mem servers e0.1 e0.2 he0
  obtain ⟨h1, h2, h3, _, h5⟩ := pingServersLoop_spec env (getServerAddresses order servers)
    servers 0 w hpresent hvisitkeys
  have hcalls : (pingServers order env servers w).2.2.pingCalls.drop w.pingCalls.length =
      ((getServerAddresses order servers).enumFrom 0).flatMap
        (fun p => (pingTry (env p.1) p.2.2 (PingPacket.create (pingIdOf env p.1))).1) := by
    unfold pingServers
    rw [h2]
    exact List.drop_left _ _
  refine ⟨h1, h3, ?_, ?_, ?_, ?_⟩
  · intro k g hg
    have hmem : (k, g.address) ∈ getServerAddresses order servers := by
      apply hperm.mem_iff.mpr
      exact List.mem_map.mpr ⟨(k, g), getServer_mem servers k g hg, rfl⟩
    obtain ⟨i, hi⟩ := List.mem_iff_getElem?.mp hmem
    have hilt : i < servers.length := by
      obtain ⟨hlt, _⟩ := List.getElem?_eq_some_iff.mp hi
      omega
    refine ⟨i, hilt, hi, ?_, mapAt_mapAssign _ _ _, ?_⟩
    · have := h5 i k g.address hi
      unfold pingServers
      rw [this, hg, Nat.zero_add]
      rfl
    · intro hnew
      simp [mapAssign, hnew]
  · unfold pingServers
    rw [h2]
    simp only [pingTry_explicit, List.enum]
  · rw [hcalls, pingCalls_connect_count, hlen]
  · rw [hcalls, pingCalls_send_count,
      countP_enumFrom_index (fun i => (env i).connectFails.isNone), hlen,
      List.range_eq_range']

/-- Witness for C13: two fresh servers; the address map is iterated in reverse, so the task
visits "B" first, and the connect of the first iteration fails. "B" gets ping id 7 and "A"
ping id 8; two connects and one send are attempted; one warning is reported. -/
theorem pingServers_probes_every_entry_witness :
    (pingServers List.reverse unreachableFirstEnv rosterAB World.empty).1 = .ok () ∧
    (pingServers List.reverse unreachableFirstEnv rosterAB World.empty).2.1 =
      [("A", { freshInfo "host1" 1000 with pendingPings := [(8, 101)] }),
       ("B", { freshInfo "host2" 2000 with pendingPings := [(7, 100)] })] ∧
    (pingServers List.reverse unreachableFirstEnv rosterAB World.empty).2.2 =
      { World.empty with
        pingCalls := [.connect "host2" 2000, .connect "host1" 1000,
          .sendPacket (PingPacket.create 8), .disconnect]
        warnings := ["connection refused"]
        released := [PingPacket.create 7, PingPacket.create 8] } ∧
    ((pingServers List.reverse unreachableFirstEnv rosterAB World.empty).2.2.pingCalls.drop
      World.empty.pingCalls.length).countP isSendCall =
      (List.range rosterAB.length).countP (fun i => (unreachableFirstEnv i).connectFails.isNone) :=
  ⟨(pingServers_probes_every_entry List.reverse unreachableFirstEnv rosterAB World.empty
      (by decide) (List.reverse_perm _)).1,
   by decide,
   (pingServers_probes_every_entry List.reverse unreachableFirstEnv rosterAB World.empty
      (by decide) (List.reverse_perm _)).2.2.2.1,
   (pingServers_probes_every_entry List.reverse unreachableFirstEnv rosterAB World.empty
      (by decide) (List.reverse_perm _)).2.2.2.2.2⟩

/-- C13 (counterexample to the claim as stated): two roster entries and a failing connect
in the first iteration. Whether the task visits the address map in the order of the roster
or in reverse, `sendPacket` is called once, not twice. And on a roster where ping id 7 is
already pending on "A", a task whose generator yields 7 overwrites that entry in either
order, so "A" still has one pending ping. -/
theorem pingServers_skips_send_after_failed_connect :
    rosterAB.length = 2 ∧
    (pingServers id unreachableFirstEnv rosterAB World.empty).2.2.pingCalls =
      [.connect "host1" 1000, .connect "host2" 2000, .sendPacket (PingPacket.create 8),
        .disconnect] ∧
    (pingServers id unreachableFirstEnv rosterAB World.empty).2.2.pingCalls.countP isSendCall
      = 1 ∧
    (pingServers List.reverse unreachableFirstEnv rosterAB World.empty).2.2.pingCalls =
      [.connect "host2" 2000, .connect "host1" 1000, .sendPacket (PingPacket.create 8),
        .disconnect] ∧
    (pingServers List.reverse unreachableFirstEnv rosterAB
      World.empty).2.2.pingCalls.countP isSendCall = 1 ∧
    (getServer rosterCollide "A").map (fun g => g.pendingPings) = some [(7, 10)] ∧
    (getServer (pingServers id (quietEnv (fun _ => 7)) rosterCollide World.empty).2.1
      "A").map (fun g => g.pendingPings) = some [(7, 100)] ∧
    (getServer (pingServers List.reverse (quietEnv (fun _ => 7)) rosterCollide
      World.empty).2.1 "A").map (fun g => g.pendingPings) = some [(7, 101)] := by
  decide

/-! ## A ping id pending on several servers -/

theorem mapErase_length {κ α : Type} [DecidableEq κ] (m : List (κ × α)) (k : κ)
    (hkeys : (m.map Prod.fst).Nodup) (hc : mapContains m k = true) :
    (mapErase m k).length + 1 = m.length := by
  induction m with
  | nil => simp [mapContains] at hc
  | cons e rest ih =>
    rw [List.map_cons, List.nodup_cons] at hkeys
    by_cases hk : e.1 = k
    · have hrest : mapErase rest k = rest := by
        unfold mapErase
        rw [List.filter_eq_self]
        intro a ha
        have : a.1 ≠ k := by
          intro hak
          apply hkeys.1
          rw [hk, ← hak]
          exact List.mem_map_of_mem _ ha
        simpa using this
      have hcons : mapErase (e :: rest) k = mapErase rest k := by
        simp [mapErase, hk]
      rw [hcons, hrest]
      rfl
    · have hc1 : mapContains rest k = true := by
        simpa [mapContains, hk] using hc
      have hcons : mapErase (e :: rest) k = e :: mapErase rest k := by
        simp [mapErase, hk]
      rw [hcons, List.length_cons, List.length_cons, ih hkeys.2 hc1]

theorem exists_first_holder (servers : Roster) (pingId : Nat)
    (h : 1 ≤ holders servers pingId) :
    ∃ pre k g post,
      servers = pre ++ (k, g) :: post ∧
      (∀ e ∈ pre, mapContains e.2.pendingPings pingId = false) ∧
      mapContains g.pendingPings pingId = true := by
  induction servers with
  | nil => simp [holders] at h
  | cons e rest ih =>
    obtain ⟨k, g⟩ := e
    by_cases hc : mapContains g.pendingPings pingId = true
    · exact ⟨[], k, g, rest, rfl, by simp, hc⟩
    · have hrest : 1 ≤ holders rest pingId := by
        unfold holders at h ⊢
        rw [List.countP_cons] at h
        have hzero : (if mapContains ((k, g) : String × GameServerInfo).2.pendingPings pingId
            = true then 1 else 0) = 0 := if_neg hc
        rw [hzero] at h
        exact h
      obtain ⟨pre, k1, g1, post, hsplit, hpre, hg1⟩ := ih hrest
      refine ⟨(k, g) :: pre, k1, g1, post, by simp [hsplit], ?_, hg1⟩
      intro e he
      rcases List.mem_cons.mp he with rfl | he1
      · simpa using hc
      · exact hpre e he1

theorem recordPingLoop_found (cap pingId n : Nat) (now start : Time) (pre post : Roster)
    (k : String) (g : GameServerInfo)
    (hpre : ∀ e ∈ pre, mapContains e.2.pendingPings pingId = false)
    (hg : mapContains g.pendingPings pingId = true)
    (hstart : mapAt g.pendingPings pingId = .ok start) :
    recordPingLoop cap pingId n now (pre ++ (k, g) :: post) =
      (some (.ok ()), pre ++ (k, resolved cap pingId n now start g) :: post) := by
  induction pre with
  | nil => simp [recordPingLoop, hg, hstart, resolved]
  | cons e rest ih =>
    obtain ⟨k1, g1⟩ := e
    have h1 : mapContains g1.pendingPings pingId = false := hpre (k1, g1) (by simp)
    have h2 := ih (fun e he => hpre e (List.mem_cons_of_mem _ he))
    simp [recordPingLoop, h1, h2]

theorem holders_none (pre : Roster) (pingId : Nat)
    (hpre : ∀ e ∈ pre, mapContains e.2.pendingPings pingId = false) :
    holders pre pingId = 0 := by
  unfold holders
  rw [List.countP_eq_zero]
  intro e he
  simp [hpre e he]

/-- C14: for every roster (whose `pendingPings` maps have distinct keys, as maps do) in
which the same ping id is pending on two or more servers, `recordPingResponse(pingId, n)`
returns normally without a warning and resolves exactly one of them, the first in
iteration order: the roster splits as `pre ++ (k, g) :: post` with the id pending on no
entry of `pre` and on `g`; the result is the same roster with `g` alone rewritten (ping,
player count and ping history updated, the pending entry erased). The total number of
pending pings decreases by exactly one, and the number of servers holding the id decreases
by exactly one: every other holder lies in `post`, which is unchanged. -/
theorem recordPingResponse_duplicate_id (cap : Nat) (servers : Roster) (pingId n : Nat)
    (now : Time)
    (hwf : ∀ e ∈ servers, (e.2.pendingPings.map Prod.fst).Nodup)
    (hdup : 2 ≤ holders servers pingId) :
    ∃ pre k g post start,
      servers = pre ++ (k, g) :: post ∧
      (∀ e ∈ pre, mapContains e.2.pendingPings pingId = false) ∧
      mapContains g.pendingPings pingId = true ∧
      mapAt g.pendingPings pingId = .ok start ∧
      recordPingResponse cap servers pingId n now =
        (.ok (), pre ++ (k, resolved cap pingId n now start g) :: post, []) ∧
      (resolved cap pingId n now start g).ping = now - start ∧
      (resolved cap pingId n now start g).playerCount = n ∧
      (resolved cap pingId n now start g).pingHistory =
        cappedPush cap g.pingHistory (now - start) ∧
      mapContains (resolved cap pingId n now start g).pendingPings pingId = false ∧
      totalPending (pre ++ (k, resolved cap pingId n now start g) :: post) + 1 =
        totalPending servers ∧
      holders (pre ++ (k, resolved cap pingId n now start g) :: post) pingId + 1 =
        holders servers pingId ∧
      holders post pingId + 1 = holders servers pingId := by
  obtain ⟨pre, k, g, post, hsplit, hpre, hg⟩ :=
    exists_first_holder servers pingId (by omega)
  obtain ⟨start, hstart⟩ := mapAt_of_mapContains _ _ hg
  have hgone : mapContains (resolved cap pingId n now start g).pendingPings pingId = false :=
    mapContains_mapErase _ _
  have hlen : (mapErase g.pendingPings pingId).length + 1 = g.pendingPings.length :=
    mapErase_length _ _ (hwf (k, g) (by simp [hsplit])) hg
  have hpre0 := holders_none pre pingId hpre
  refine ⟨pre, k, g, post, start, hsplit, hpre, hg, hstart, ?_, rfl, rfl, rfl, hgone, ?_, ?_, ?_⟩
  · simp only [recordPingResponse, hsplit,
      recordPingLoop_found cap pingId n now start pre post k g hpre hg hstart]
  · rw [hsplit]
    unfold totalPending
    simp only [List.map_append, List.map_cons, List.sum_append, List.sum_cons, resolved]
    omega
  · rw [hsplit]
    unfold holders at hpre0 ⊢
    simp only [List.countP_append, List.countP_cons, hgone, hg, hpre0]
    simp
  · rw [hsplit]
    unfold holders at hpre0 ⊢
    simp only [List.countP_append, List.countP_cons, hg, hpre0]
    simp

/-- Witness for C14: ping id 7 is pending on "B" and on "C"; the response resolves "B" and
leaves the id pending on "C". -/
theorem recordPingResponse_duplicate_id_witness :
    recordPingResponse 3 rosterDuplicate 7 5 140 =
      (.ok (),
        [("A", freshInfo "host1" 1000),
         ("B", { freshInfo "host2" 2000 with
            pendingPings := [(8, 101)], ping := 40, playerCount := 5, pingHistory := [40] }),
         ("C", { freshInfo "host3" 3000 with pendingPings := [(7, 102)] })], []) ∧
    ∃ pre k g post start,
      rosterDuplicate = pre ++ (k, g) :: post ∧
      (∀ e ∈ pre, mapContains e.2.pendingPings 7 = false) ∧
      mapContains g.pendingPings 7 = true ∧
      mapAt g.pendingPings 7 = .ok start ∧
      recordPingResponse 3 rosterDuplicate 7 5 140 =
        (.ok (), pre ++ (k, resolved 3 7 5 140 start g) :: post, []) ∧
      (resolved 3 7 5 140 start g).ping = 140 - start ∧
      (resolved 3 7 5 140 start g).playerCount = 5 ∧
      (resolved 3 7 5 140 start g).pingHistory = cappedPush 3 g.pingHistory (140 - start) ∧
      mapContains (resolved 3 7 5 140 start g).pendingPings 7 = false ∧
      totalPending (pre ++ (k, resolved 3 7 5 140 start g) :: post) + 1 =
        totalPending rosterDuplicate ∧
      holders (pre ++ (k, resolved 3 7 5 140 start g) :: post) 7 + 1 =
        holders rosterDuplicate 7 ∧
      holders post 7 + 1 = holders rosterDuplicate 7 :=
  ⟨by decide,
   recordPingResponse_duplicate_id 3 rosterDuplicate 7 5 140 (by decide) (by decide)⟩

end Globed
